import Mathlib

/-!
# Verification of the prompt-template core

Shallow embedding of `prompt_template` (models, renderer, validator,
analyzer, quality scorer, semantic validator) and proofs about the
behaviour its specification describes.
-/

set_option maxRecDepth 4000

namespace PromptTemplate

/-! ## Character and string primitives

Python string operations used by the code, modelled on `List Char`.
ASCII is assumed throughout (the repository's patterns and tests are
ASCII-only); `str.lower`, `\s`, `\w` are modelled on that subset. -/

/-- The character `{` (written via its code point to keep strings brace-free). -/
def lbrace : Char := Char.ofNat 123

/-- The character `}`. -/
def rbrace : Char := Char.ofNat 125

/-- Python `\s` on ASCII: space, tab, newline, carriage return, vertical tab, form feed. -/
def isSpacePy (c : Char) : Bool :=
  c = ' ' || c = '\t' || c = '\n' || c = '\x0d' || c = '\x0b' || c = '\x0c'

/-- Python `\w` on ASCII: letters, digits, underscore. -/
def isWordChar (c : Char) : Bool :=
  (('a' ≤ c && c ≤ 'z') || ('A' ≤ c && c ≤ 'Z') || ('0' ≤ c && c ≤ '9') || c = '_')

/-- ASCII lower-casing, as `str.lower` / `re.IGNORECASE` behave on ASCII. -/
def lowerChar (c : Char) : Char :=
  if 'A' ≤ c && c ≤ 'Z' then Char.ofNat (c.toNat + 32) else c

def lowerStr (s : List Char) : List Char := s.map lowerChar

/-- `pat` occurs at the head of `s`. -/
def prefixAt : List Char → List Char → Bool
  | [], _ => true
  | _ :: _, [] => false
  | p :: ps, c :: cs => p = c && prefixAt ps cs

/-- Python `pat in s` (substring containment). -/
def containsSub (pat : List Char) : List Char → Bool
  | [] => prefixAt pat []
  | c :: cs => prefixAt pat (c :: cs) || containsSub pat cs

/-- Python `s.count(pat)` for non-empty `pat`: non-overlapping occurrences,
scanning left to right.  (Every call site passes a non-empty literal; the
empty pattern is mapped to 0.  Fuel-based recursion: each step consumes at
least one character, so `length + 1` units always suffice.) -/
def countSubAux (pat : List Char) : Nat → List Char → Nat
  | 0, _ => 0
  | _ + 1, [] => 0
  | fuel + 1, c :: cs =>
    if pat.length = 0 then 0
    else if prefixAt pat (c :: cs) then
      countSubAux pat fuel ((c :: cs).drop pat.length) + 1
    else
      countSubAux pat fuel cs

def countSub (pat : List Char) (s : List Char) : Nat :=
  countSubAux pat (s.length + 1) s

/-- Number of maximal whitespace runs, as `len(re.findall(r"\s+", text))`. -/
def wsRuns : List Char → Nat
  | [] => 0
  | c :: cs =>
    if isSpacePy c then
      match cs with
      | [] => 1
      | d :: _ => if isSpacePy d then wsRuns cs else 1 + wsRuns cs
    else wsRuns cs

/-- Python `str.strip()`: remove leading and trailing whitespace. -/
def stripPy (s : List Char) : List Char :=
  ((s.dropWhile isSpacePy).reverse.dropWhile isSpacePy).reverse

/-- Python `str.split()` (split on whitespace runs, dropping empties). -/
def splitWs : List Char → List (List Char)
  | [] => []
  | c :: cs =>
    if isSpacePy c then splitWs cs
    else
      match splitWs cs with
      | [] => [[c]]
      | w :: ws =>
        match cs with
        | [] => [[c]]
        | d :: _ => if isSpacePy d then [c] :: w :: ws else (c :: w) :: ws

/-- Python `str.split(sep)` for a single-character separator (used with `"."`). -/
def splitOn (sep : Char) : List Char → List (List Char)
  | [] => [[]]
  | c :: cs =>
    if c = sep then [] :: splitOn sep cs
    else
      match splitOn sep cs with
      | [] => [[c]]
      | w :: ws => (c :: w) :: ws

/-- Dedicated list-membership for `List Char` keys. -/
def memStr (x : List Char) (xs : List (List Char)) : Bool := xs.contains x

/-- Deduplicate keeping first occurrences (used to model `set(...)` where only
membership matters; iteration order of Python sets is not observable in any
property proved here). -/
def dedup : List (List Char) → List (List Char)
  | [] => []
  | x :: xs => if memStr x (dedup xs) then dedup xs else x :: dedup xs

end PromptTemplate

namespace PromptTemplate

/-! ## Python values

The subset of Python values that appear as variable defaults, enum members
and render-time bindings in this repository (strings, ints, bools, `None`).
Container values (lists/dicts) and floats do not occur in any property
verified here; a value universe without them is closed under every
operation the embedded code performs. -/

inductive PyValue where
  | str (s : List Char)
  | int (n : Int)
  | bool (b : Bool)
  | none
deriving DecidableEq, Repr

/-- Python `str(value)` on the modelled universe. -/
def pyStr : PyValue → List Char
  | .str s => s
  | .int n => (toString n).data
  | .bool b => if b then ['T','r','u','e'] else ['F','a','l','s','e']
  | .none => ['N','o','n','e']

/-- Python truthiness on the modelled universe. -/
def pyTruthy : PyValue → Bool
  | .str s => !s.isEmpty
  | .int n => n ≠ 0
  | .bool b => b
  | .none => false

/-- Python `==` on the modelled universe (`True == 1`, `False == 0`). -/
def pyEq : PyValue → PyValue → Bool
  | .str a, .str b => a = b
  | .int a, .int b => a = b
  | .bool a, .bool b => a = b
  | .bool a, .int b => (if a then 1 else 0 : Int) = b
  | .int a, .bool b => a = (if b then 1 else 0 : Int)
  | .none, .none => true
  | _, _ => false

/-- Association-list lookup, modelling Python `dict` access (`d[k]`, `k in d`). -/
def alookup {α : Type} (k : List Char) : List (List Char × α) → Option α
  | [] => Option.none
  | (k', v) :: rest => if k' = k then some v else alookup k rest

def akeys {α : Type} (d : List (List Char × α)) : List (List Char) := d.map Prod.fst

/-! ## IEEE-754 binary64 arithmetic, exactly

Python floats are IEEE-754 doubles.  A finite double is a rational; each
arithmetic operation rounds the exact rational result to 53 significant
bits (round-to-nearest, ties-to-even).  `fl64` is that rounding function
for the normal range, which covers every value arising in this
repository's arithmetic (small magnitudes, no overflow/underflow). -/

/-- Round-to-nearest-integer, ties to even. -/
def roundNE (q : ℚ) : ℤ :=
  if q - (⌊q⌋ : ℚ) < 1/2 then ⌊q⌋
  else if 1/2 < q - (⌊q⌋ : ℚ) then ⌊q⌋ + 1
  else if 2 ∣ ⌊q⌋ then ⌊q⌋ else ⌊q⌋ + 1

/-- Round a positive rational to 53 significant binary digits. -/
def fl64Pos (q : ℚ) : ℚ :=
  (roundNE (q * (2 : ℚ) ^ (52 - Int.log 2 q)) : ℚ) * (2 : ℚ) ^ (Int.log 2 q - 52)

/-- Rounding of an exact rational to the nearest IEEE binary64 value
(normal range; ties to even). -/
def fl64 (q : ℚ) : ℚ :=
  if q = 0 then 0
  else if 0 < q then fl64Pos q
  else -fl64Pos (-q)

theorem roundNE_intCast (n : ℤ) : roundNE (n : ℚ) = n := by
  simp [roundNE]

theorem roundNE_nonneg {q : ℚ} (hq : 0 ≤ q) : 0 ≤ roundNE q := by
  have h0 : (0 : ℤ) ≤ ⌊q⌋ := Int.floor_nonneg.mpr hq
  unfold roundNE
  split_ifs <;> omega

/-- Dyadic rationals with at most 53 significant bits round to themselves. -/
theorem fl64Pos_dyadic (m : ℕ) (k : ℤ) (hm0 : 0 < m) (hm : (m : ℤ) < 2 ^ 53) :
    fl64Pos ((m : ℚ) * (2 : ℚ) ^ k) = (m : ℚ) * (2 : ℚ) ^ k := by
  have hq : (0 : ℚ) < (m : ℚ) * (2 : ℚ) ^ k := by positivity
  set q : ℚ := (m : ℚ) * (2 : ℚ) ^ k with hqdef
  have hle : (2 : ℚ) ^ (Int.log 2 q) ≤ q := Int.zpow_log_le_self (by norm_num) hq
  set e : ℤ := Int.log 2 q with hedef
  have hm53 : (m : ℚ) < (2 : ℚ) ^ (53 : ℤ) := by
    have h1 : ((m : ℤ) : ℚ) < ((2 ^ 53 : ℤ) : ℚ) := Int.cast_lt.mpr hm
    have h2 : ((2 ^ 53 : ℤ) : ℚ) = (2 : ℚ) ^ (53 : ℤ) := by norm_num
    rw [h2] at h1
    exact_mod_cast h1
  have h2 : q < (2 : ℚ) ^ (k + 53) := by
    calc q = (m : ℚ) * (2 : ℚ) ^ k := hqdef
      _ < (2 : ℚ) ^ (53 : ℤ) * (2 : ℚ) ^ k :=
          mul_lt_mul_of_pos_right hm53 (by positivity)
      _ = (2 : ℚ) ^ (k + 53) := by
          rw [← zpow_add₀ (by norm_num : (2:ℚ) ≠ 0)]
          ring_nf
  have helt : e < k + 53 := by
    rw [hedef]
    exact (Int.lt_zpow_iff_log_lt (by norm_num) hq).mp h2
  set t : ℕ := (k + 52 - e).toNat with htdef
  have ht : (t : ℤ) = k + 52 - e := by
    rw [htdef]; omega
  have hint : q * (2 : ℚ) ^ (52 - e) = (((m * 2 ^ t : ℕ) : ℤ) : ℚ) := by
    have h5 : q * (2 : ℚ) ^ (52 - e) = (m : ℚ) * (2 : ℚ) ^ ((t : ℤ)) := by
      rw [hqdef, mul_assoc, ← zpow_add₀ (by norm_num : (2:ℚ) ≠ 0), ht]
      ring_nf
    rw [h5, zpow_natCast]
    push_cast
    ring
  have hfin : fl64Pos q = (((m * 2 ^ t : ℕ) : ℤ) : ℚ) * (2 : ℚ) ^ (e - 52) := by
    unfold fl64Pos
    rw [← hedef, hint, roundNE_intCast]
  rw [hfin]
  push_cast
  rw [mul_assoc, ← zpow_natCast (2:ℚ), ← zpow_add₀ (by norm_num : (2:ℚ) ≠ 0), ht]
  rw [show k + 52 - e + (e - 52) = k by omega]

theorem fl64_nonneg {q : ℚ} (hq : 0 ≤ q) : 0 ≤ fl64 q := by
  unfold fl64
  rcases eq_or_lt_of_le hq with h | h
  · simp [← h]
  · rw [if_neg (by linarith), if_pos h]
    unfold fl64Pos
    have h1 : (0:ℚ) ≤ q * (2 : ℚ) ^ (52 - Int.log 2 q) := by positivity
    have h2 := roundNE_nonneg h1
    positivity

end PromptTemplate

namespace PromptTemplate

/-- Shorthand: characters of a string literal. -/
def chars (s : String) : List Char := s.data

/-- Decimal rendering of a natural number (Python `f"{n}"`). -/
def natToChars (n : Nat) : List Char := (toString n).data

/-- Index of the first occurrence of `pat`, if any. -/
def findSub (pat : List Char) : List Char → Option Nat
  | [] => if prefixAt pat [] then some 0 else Option.none
  | c :: cs =>
    if prefixAt pat (c :: cs) then some 0
    else (findSub pat cs).map (· + 1)

/-! ## The Jinja2 fragment

The repository delegates template parsing/rendering to Jinja2
(`SandboxedEnvironment`, an external library whose grammar the spec
treats as a black box with given semantics).  The fragment below models
the constructs exercised by the verified properties: literal text,
`\x7b\x7b name \x7d\x7d` substitution, and `\x7b% if name %\x7d … \x7b% else %\x7d … \x7b% endif %\x7d`
with a plain variable truth-test.  Bodies using other Jinja constructs
parse to `Option.none` here; every theorem that inspects parsed output is
conditioned on parse success, so nothing is asserted about bodies outside
the fragment. -/

/-- A parsed template body in the fragment.  (A flat inductive — body
sequencing is built into the constructors — so that every function on it
is structurally recursive and kernel-evaluable.) -/
inductive JBody where
  | nil
  | text (s : List Char) (rest : JBody)
  | var (name : List Char) (rest : JBody)
  | ifb (cond : List Char) (thenB elseB : JBody) (rest : JBody)
deriving DecidableEq, Repr

/-- Lexer tokens: literal runs, `\x7b\x7b…\x7d\x7d` payloads, `\x7b%…%\x7d` payloads. -/
inductive JTok where
  | lit (s : List Char)
  | expr (s : List Char)
  | stmt (s : List Char)
deriving DecidableEq, Repr

/-- Length of the literal run before the next `\x7b\x7b` or `\x7b%` marker. -/
def litLen : List Char → Nat
  | [] => 0
  | c :: cs =>
    if prefixAt [lbrace, lbrace] (c :: cs) || prefixAt [lbrace, '%'] (c :: cs) then 0
    else 1 + litLen cs

def jinjaLex : Nat → List Char → Option (List JTok)
  | 0, _ => Option.none
  | _ + 1, [] => some []
  | fuel + 1, c :: cs =>
    if prefixAt [lbrace, lbrace] (c :: cs) then
      match findSub [rbrace, rbrace] ((c :: cs).drop 2) with
      | Option.none => Option.none
      | some i =>
        (jinjaLex fuel (((c :: cs).drop 2).drop (i + 2))).map
          (JTok.expr (((c :: cs).drop 2).take i) :: ·)
    else if prefixAt [lbrace, '%'] (c :: cs) then
      match findSub ['%', rbrace] ((c :: cs).drop 2) with
      | Option.none => Option.none
      | some i =>
        (jinjaLex fuel (((c :: cs).drop 2).drop (i + 2))).map
          (JTok.stmt (((c :: cs).drop 2).take i) :: ·)
    else
      let n := litLen (c :: cs)
      (jinjaLex fuel ((c :: cs).drop n)).map (JTok.lit ((c :: cs).take n) :: ·)

/-- A Jinja identifier: `[a-zA-Z_][a-zA-Z0-9_]*`. -/
def isIdent (s : List Char) : Bool :=
  match s with
  | [] => false
  | c :: cs =>
    ((('a' ≤ c && c ≤ 'z') || ('A' ≤ c && c ≤ 'Z') || c = '_') && cs.all isWordChar)

/-- Parse an expression payload: whitespace-delimited single identifier. -/
def parseExprPayload (s : List Char) : Option (List Char) :=
  let name := (s.dropWhile isSpacePy).takeWhile (fun c => !isSpacePy c)
  let rest := ((s.dropWhile isSpacePy).dropWhile (fun c => !isSpacePy c)).dropWhile isSpacePy
  if isIdent name && rest.isEmpty then some name else Option.none

inductive JStmt where
  | sif (cond : List Char)
  | selse
  | sendif
deriving DecidableEq, Repr

def parseStmtPayload (s : List Char) : Option JStmt :=
  match splitWs s with
  | [w, c] => if w = chars "if" && isIdent c then some (JStmt.sif c) else Option.none
  | [w] =>
    if w = chars "else" then some JStmt.selse
    else if w = chars "endif" then some JStmt.sendif
    else Option.none
  | _ => Option.none

/-- Recursive-descent parse of a token list; stops (without consuming) at
`else`/`endif`. -/
def parseNodes : Nat → List JTok → Option (JBody × List JTok)
  | 0, _ => Option.none
  | _ + 1, [] => some (JBody.nil, [])
  | fuel + 1, JTok.lit s :: rest =>
    (parseNodes fuel rest).map (fun (ns, r) => (JBody.text s ns, r))
  | fuel + 1, JTok.expr s :: rest =>
    match parseExprPayload s with
    | Option.none => Option.none
    | some name => (parseNodes fuel rest).map (fun (ns, r) => (JBody.var name ns, r))
  | fuel + 1, JTok.stmt s :: rest =>
    match parseStmtPayload s with
    | Option.none => Option.none
    | some JStmt.selse => some (JBody.nil, JTok.stmt s :: rest)
    | some JStmt.sendif => some (JBody.nil, JTok.stmt s :: rest)
    | some (JStmt.sif c) =>
      match parseNodes fuel rest with
      | Option.none => Option.none
      | some (thenB, r1) =>
        match r1 with
        | JTok.stmt s1 :: r2 =>
          match parseStmtPayload s1 with
          | some JStmt.sendif =>
            (parseNodes fuel r2).map (fun (ns, r) => (JBody.ifb c thenB JBody.nil ns, r))
          | some JStmt.selse =>
            match parseNodes fuel r2 with
            | Option.none => Option.none
            | some (elseB, r3) =>
              match r3 with
              | JTok.stmt s2 :: r4 =>
                match parseStmtPayload s2 with
                | some JStmt.sendif =>
                  (parseNodes fuel r4).map
                    (fun (ns, r) => (JBody.ifb c thenB elseB ns, r))
                | _ => Option.none
              | _ => Option.none
          | _ => Option.none
        | _ => Option.none

/-- Parse a template body in the modelled Jinja fragment.
`Option.none` models `TemplateSyntaxError` (and, conservatively, any
construct outside the fragment). -/
def jinjaParse (body : List Char) : Option JBody :=
  match jinjaLex (body.length + 1) body with
  | Option.none => Option.none
  | some toks =>
    match parseNodes (toks.length + 1) toks with
    | some (ns, []) => some ns
    | _ => Option.none

/-- Free variables of a body (`jinja2.meta.find_undeclared_variables`). -/
def freeVars : JBody → List (List Char)
  | JBody.nil => []
  | JBody.text _ rest => freeVars rest
  | JBody.var n rest => n :: freeVars rest
  | JBody.ifb c t e rest => c :: (freeVars t ++ freeVars e ++ freeVars rest)

/-- Lenient rendering (default `Undefined`): missing names print as empty
and are falsy in an `if` test. -/
def renderLen (binds : List (List Char × PyValue)) : JBody → List Char
  | JBody.nil => []
  | JBody.text s rest => s ++ renderLen binds rest
  | JBody.var n rest =>
    (match alookup n binds with
     | some v => pyStr v
     | Option.none => []) ++ renderLen binds rest
  | JBody.ifb c t e rest =>
    (match alookup c binds with
     | some v => if pyTruthy v then renderLen binds t else renderLen binds e
     | Option.none => renderLen binds e) ++ renderLen binds rest

/-- Strict rendering (`StrictUndefined`): any use of a missing name raises
`UndefinedError`, modelled as `Except.error` carrying the message. -/
def renderStrict (binds : List (List Char × PyValue)) :
    JBody → Except (List Char) (List Char)
  | JBody.nil => Except.ok []
  | JBody.text s rest =>
    match renderStrict binds rest with
    | Except.error e => Except.error e
    | Except.ok s2 => Except.ok (s ++ s2)
  | JBody.var n rest =>
    match alookup n binds with
    | some v =>
      match renderStrict binds rest with
      | Except.error e => Except.error e
      | Except.ok s2 => Except.ok (pyStr v ++ s2)
    | Option.none => Except.error (chars "'" ++ n ++ chars "' is undefined")
  | JBody.ifb c t e rest =>
    match alookup c binds with
    | some v =>
      match (if pyTruthy v then renderStrict binds t else renderStrict binds e) with
      | Except.error er => Except.error er
      | Except.ok s1 =>
        match renderStrict binds rest with
        | Except.error e2 => Except.error e2
        | Except.ok s2 => Except.ok (s1 ++ s2)
    | Option.none => Except.error (chars "'" ++ c ++ chars "' is undefined")

end PromptTemplate

namespace PromptTemplate

/-! ## Configuration model (`models.py`)

`VariableConfig` and `TemplateConfig` as plain records.  The pydantic
construction-time validators (identifier names, non-blank content) are
side conditions of construction, not of the operations verified here;
`model_config` is inert metadata consumed by nothing in scope and is
omitted. -/

inductive VariableType where
  | string | integer | float | boolean | list | object
deriving DecidableEq, Repr

structure VariableConfig where
  name : List Char
  type : VariableType := VariableType.string
  required : Bool := true
  default : Option PyValue := Option.none
  description : List Char := []
  enum : Option (List PyValue) := Option.none
deriving DecidableEq, Repr

structure TemplateConfig where
  name : List Char
  description : List Char := []
  version : List Char := chars "1.0.0"
  author : List Char := []
  tags : List (List Char) := []
  variables' : List VariableConfig := []
  template : List Char := []
  system_prompt : Option (List Char) := Option.none
  user_prompt : Option (List Char) := Option.none
deriving DecidableEq, Repr

/-- Python truthiness of an optional string field (`None` and `""` falsy). -/
def optTruthy (o : Option (List Char)) : Bool :=
  match o with
  | some s => !s.isEmpty
  | Option.none => false

/-- `field or ""` for optional prompt fields. -/
def optStr (o : Option (List Char)) : List Char := o.getD []

namespace TemplateConfig

/-- `TemplateConfig.get_variable`: first declaration with the given name. -/
def get_variable (cfg : TemplateConfig) (name : List Char) : Option VariableConfig :=
  cfg.variables'.find? (fun v => v.name = name)

/-- `get_declared_required_variables`. -/
def get_declared_required_variables (cfg : TemplateConfig) : List VariableConfig :=
  cfg.variables'.filter (fun v => v.required)

/-- `get_must_provide_variables`: required and without default. -/
def get_must_provide_variables (cfg : TemplateConfig) : List VariableConfig :=
  cfg.variables'.filter (fun v => v.required && v.default.isNone)

/-- The `system_prompt + user_prompt + template` concatenation used by the
analyzer, scorer and semantic validator. -/
def allContent (cfg : TemplateConfig) : List Char :=
  optStr cfg.system_prompt ++ optStr cfg.user_prompt ++ cfg.template

end TemplateConfig

/-! ## Rendering engine (`renderer.py`) -/

namespace TemplateRenderer

/-- The regex fallback `re.findall(r"\x7b\x7b\s*([a-zA-Z_][a-zA-Z0-9_]*)", s)`
of `_extract_variables_regex`, before the `set(...)`. -/
def extractVariablesRegexAll : Nat → List Char → List (List Char)
  | 0, _ => []
  | _ + 1, [] => []
  | fuel + 1, c :: cs =>
    if prefixAt [lbrace, lbrace] (c :: cs) then
      let afterWs := ((c :: cs).drop 2).dropWhile isSpacePy
      match afterWs with
      | [] => extractVariablesRegexAll fuel cs
      | d :: ds =>
        if ('a' ≤ d && d ≤ 'z') || ('A' ≤ d && d ≤ 'Z') || d = '_' then
          let ident := d :: ds.takeWhile isWordChar
          ident :: extractVariablesRegexAll fuel (ds.dropWhile isWordChar)
        else
          extractVariablesRegexAll fuel cs
    else
      extractVariablesRegexAll fuel cs

/-- `TemplateRenderer._extract_variables_regex` (the fallback used when the
body does not parse). -/
def extract_variables_regex (body : List Char) : List (List Char) :=
  dedup (extractVariablesRegexAll (body.length + 1) body)

/-- `TemplateRenderer.extract_variables`: static analysis of the parsed
template, regex fallback on `TemplateSyntaxError`. -/
def extract_variables (body : List Char) : List (List Char) :=
  match jinjaParse body with
  | some ast => dedup (freeVars ast)
  | Option.none => extract_variables_regex body

/-- The message Jinja produces for a syntax error is environment-determined
free text; it is modelled by a fixed string.  No verified property depends
on its contents, only on the `Unbalanced …` messages built below. -/
def syntaxErrorMessage : List Char := chars "Syntax error: invalid template syntax"

def unbalancedBracesMsg (opening closing : Nat) : List Char :=
  chars "Unbalanced braces: " ++ natToChars opening ++ chars " opening '" ++
    [lbrace, lbrace] ++ chars "' vs " ++ natToChars closing ++ chars " closing '" ++
    [rbrace, rbrace] ++ chars "'"

def unbalancedBlockMsg (opening closing : Nat) : List Char :=
  chars "Unbalanced block tags: " ++ natToChars opening ++ chars " opening '" ++
    [lbrace, '%'] ++ chars " ' vs " ++ natToChars closing ++ chars " closing ' " ++
    ['%', rbrace] ++ chars "'"

/-- `TemplateRenderer.validate_syntax`. -/
def validate_syntax (body : List Char) : List (List Char) :=
  let parseErrors : List (List Char) :=
    match jinjaParse body with
    | some _ => []
    | Option.none => [syntaxErrorMessage]
  let openBraces := countSub [lbrace, lbrace] body
  let closeBraces := countSub [rbrace, rbrace] body
  let braceErrors : List (List Char) :=
    if openBraces ≠ closeBraces then [unbalancedBracesMsg openBraces closeBraces] else []
  let blockErrors : List (List Char) :=
    if containsSub [lbrace, '%'] body then
      let openBlocks := countSub [lbrace, '%'] body
      let closeBlocks := countSub ['%', rbrace] body
      if openBlocks ≠ closeBlocks then [unbalancedBlockMsg openBlocks closeBlocks] else []
    else []
  parseErrors ++ braceErrors ++ blockErrors

/-- The binding map `preview` passes to the lenient render: caller bindings,
then `"[name]"` for each extracted variable not already bound. -/
def previewVars (body : List Char) (vars : List (List Char × PyValue)) :
    List (List Char × PyValue) :=
  vars ++
    ((extract_variables body).filter (fun v => (alookup v vars).isNone)).map
      (fun v => (v, PyValue.str ('[' :: v ++ [']'])))

/-- `TemplateRenderer.preview`: lenient render with placeholder fills; a
parse failure is converted to a `Preview error (syntax)` string.  (In the
modelled fragment the lenient render is total, so the `UndefinedError` and
catch-all branches of the source are unreachable.) -/
def preview (body : List Char) (vars : List (List Char × PyValue)) : List Char :=
  match jinjaParse body with
  | Option.none => chars "Preview error (syntax): invalid template syntax"
  | some ast => renderLen (previewVars body vars) ast

end TemplateRenderer

/-! ## Validator (`validator.py`) -/

structure ValidationResult where
  is_valid : Bool
  errors : List (List Char) := []
  warnings : List (List Char) := []
deriving DecidableEq, Repr

namespace ValidationResult

def add_error (r : ValidationResult) (msg : List Char) : ValidationResult :=
  { r with errors := r.errors ++ [msg], is_valid := false }

def add_warning (r : ValidationResult) (msg : List Char) : ValidationResult :=
  { r with warnings := r.warnings ++ [msg] }

def merge (r other : ValidationResult) : ValidationResult :=
  { r with
    errors := r.errors ++ other.errors
    warnings := r.warnings ++ other.warnings
    is_valid := r.is_valid && other.is_valid }

end ValidationResult

namespace TemplateValidator

/-- `TemplateValidator.validate_syntax`: every renderer message becomes an
error. -/
def validate_syntax (body : List Char) : ValidationResult :=
  (TemplateRenderer.validate_syntax body).foldl
    (fun r e => r.add_error e) { is_valid := true }

/-- `TemplateValidator._validate_value_type`.  `isinstance` checks on the
modelled value universe: Python's `bool` is excluded from `integer`/`float`
exactly as the source's `is_int`/`is_float` do; `list`/`object` shapes do
not occur in the universe, so those checks fail for every modelled value,
as they do in Python for non-container values. -/
def validate_value_type (name : List Char) (value : PyValue) (expected : VariableType) :
    ValidationResult :=
  let ok : Bool :=
    match expected, value with
    | VariableType.string, PyValue.str _ => true
    | VariableType.integer, PyValue.int _ => true
    | VariableType.float, PyValue.int _ => true
    | VariableType.boolean, PyValue.bool _ => true
    | _, _ => false
  if ok then { is_valid := true }
  else
    ValidationResult.add_error { is_valid := true }
      (chars "Variable '" ++ name ++ chars "' has wrong value type")

/-- `TemplateValidator.validate_variables`: duplicate names, default/type
conflicts, default-vs-enum membership (the enum guard uses Python
truthiness: `None` and `[]` both skip the check). -/
def validate_variables (cfg : TemplateConfig) : ValidationResult :=
  (cfg.variables'.foldl
    (fun (acc : ValidationResult × List (List Char)) var =>
      let (r, seen) := acc
      let r :=
        if memStr var.name seen then
          r.add_error (chars "Duplicate variable name: '" ++ var.name ++ chars "'")
        else r
      let seen := seen ++ [var.name]
      let r :=
        match var.default with
        | some d => r.merge (validate_value_type var.name d var.type)
        | Option.none => r
      let r :=
        match var.enum, var.default with
        | some (e :: es), some d =>
          if (e :: es).any (fun x => pyEq d x) then r
          else
            r.add_error
              (chars "Default value for variable '" ++ var.name ++
                chars "' is not in enum")
        | _, _ => r
      (r, seen))
    ({ is_valid := true }, [])).1

def unusedWarning (name : List Char) : List Char :=
  chars "Variable '" ++ name ++ chars "' is defined but not used in template"

def undeclaredWarning (name : List Char) : List Char :=
  chars "Variable '" ++ name ++ chars "' is used in template but not declared"

/-- `TemplateValidator.check_unused_variables` — reads only `cfg.template`. -/
def check_unused_variables (cfg : TemplateConfig) : ValidationResult :=
  let template_vars := TemplateRenderer.extract_variables cfg.template
  let defined_vars := dedup (cfg.variables'.map (fun v => v.name))
  let unused := defined_vars.filter (fun n => !memStr n template_vars)
  unused.foldl (fun r n => r.add_warning (unusedWarning n)) { is_valid := true }

/-- `TemplateValidator.check_undeclared_variables` — reads only `cfg.template`. -/
def check_undeclared_variables (cfg : TemplateConfig) : ValidationResult :=
  let template_vars := TemplateRenderer.extract_variables cfg.template
  let defined_vars := dedup (cfg.variables'.map (fun v => v.name))
  let undeclared := template_vars.filter (fun n => !memStr n defined_vars)
  undeclared.foldl (fun r n => r.add_warning (undeclaredWarning n)) { is_valid := true }

/-- `TemplateValidator.validate`: syntax, variable declarations,
unused and undeclared detection, merged in order. -/
def validate (cfg : TemplateConfig) : ValidationResult :=
  (((TemplateValidator.validate_syntax cfg.template).merge (validate_variables cfg)).merge
      (check_unused_variables cfg)).merge (check_undeclared_variables cfg)

end TemplateValidator

end PromptTemplate

namespace PromptTemplate

/-! ## `validate_inputs` and the `Template` class (`validator.py`, `template.py`) -/

/-- Python exceptions that can escape the embedded operations. -/
inductive PyExc where
  | attributeError (msg : List Char)
  | templateRenderError (msg : List Char)
deriving DecidableEq, Repr

namespace TemplateValidator

/-- `TemplateValidator.validate_inputs` as written.  Its first statement
iterates `config.get_required_variables()`, but `TemplateConfig`
(`models.py`) defines only `get_declared_required_variables` and
`get_must_provide_variables` — `get_required_variables` exists on the
`Template` wrapper class, not on the config object.  Attribute lookup on
the pydantic model therefore raises `AttributeError` before any
validation happens, so the call always fails. -/
def validate_inputs (cfg : TemplateConfig) (inputs : List (List Char × PyValue)) :
    Except PyExc ValidationResult :=
  let _ := cfg
  let _ := inputs
  Except.error (PyExc.attributeError
    (chars "'TemplateConfig' object has no attribute 'get_required_variables'"))

/-- `validate_inputs` with the method-name slip repaired
(`get_declared_required_variables`, whose results the loop body further
filters by `default is None` — the behaviour the repository's own tests
exercise).  Used to state what the intended semantics yields. -/
def validate_inputs_repaired (cfg : TemplateConfig)
    (inputs : List (List Char × PyValue)) : ValidationResult :=
  let r : ValidationResult :=
    (cfg.get_declared_required_variables).foldl
      (fun r var =>
        if (alookup var.name inputs).isNone && var.default.isNone then
          r.add_error (chars "Missing required variable: '" ++ var.name ++ chars "'")
        else r)
      { is_valid := true }
  inputs.foldl
    (fun r kv =>
      let (name, value) := kv
      match cfg.get_variable name with
      | Option.none => r.add_warning (chars "Unknown variable provided: '" ++ name ++ chars "'")
      | some var_config =>
        let r := r.merge (validate_value_type name value var_config.type)
        match var_config.enum with
        | some es =>
          if es.any (fun x => pyEq value x) then r
          else
            r.add_error
              (chars "Value for variable '" ++ name ++ chars "' is not in allowed values")
        | Option.none => r)
    r

end TemplateValidator

namespace Template

/-- `Template._apply_defaults`: add the first non-null declared default for
each name missing from the provided bindings. -/
def apply_defaults (cfg : TemplateConfig) (vars : List (List Char × PyValue)) :
    List (List Char × PyValue) :=
  cfg.variables'.foldl
    (fun merged var =>
      match var.default with
      | some d => if (alookup var.name merged).isNone then merged ++ [(var.name, d)] else merged
      | Option.none => merged)
    vars

/-- `Template.render` as the code stands: defaults are merged, then
`validate_inputs` is called *outside* the `try` block — its
`AttributeError` propagates uncaught.  Rendering failures inside the
`try` become `TemplateRenderError`. -/
def render (cfg : TemplateConfig) (vars : List (List Char × PyValue)) :
    Except PyExc (List Char) :=
  let merged := apply_defaults cfg vars
  match TemplateValidator.validate_inputs cfg merged with
  | Except.error e => Except.error e
  | Except.ok validation =>
    if validation.is_valid then
      match jinjaParse cfg.template with
      | Option.none =>
        Except.error (PyExc.templateRenderError (chars "Failed to render template: syntax error"))
      | some ast =>
        match renderStrict merged ast with
        | Except.ok s => Except.ok s
        | Except.error m =>
          Except.error (PyExc.templateRenderError (chars "Failed to render template: " ++ m))
    else
      Except.error (PyExc.templateRenderError
        (chars "Invalid input values:\n  " ++
          (validation.errors.foldl (fun acc e =>
            if acc.isEmpty then e else acc ++ chars "\n  " ++ e) [])))

/-- `Template.render` with the repaired `validate_inputs` — what every test
of `template.py` expects the method to do. -/
def render_repaired (cfg : TemplateConfig) (vars : List (List Char × PyValue)) :
    Except PyExc (List Char) :=
  let merged := apply_defaults cfg vars
  let validation := TemplateValidator.validate_inputs_repaired cfg merged
  if validation.is_valid then
    match jinjaParse cfg.template with
    | Option.none =>
      Except.error (PyExc.templateRenderError (chars "Failed to render template: syntax error"))
    | some ast =>
      match renderStrict merged ast with
      | Except.ok s => Except.ok s
      | Except.error m =>
        Except.error (PyExc.templateRenderError (chars "Failed to render template: " ++ m))
  else
    Except.error (PyExc.templateRenderError
      (chars "Invalid input values:\n  " ++
        (validation.errors.foldl (fun acc e =>
          if acc.isEmpty then e else acc ++ chars "\n  " ++ e) [])))

/-- `Template.preview`: merge non-null declared defaults for names the
caller did not bind, then delegate to the renderer preview (which fills
what is still missing with `[name]` placeholders). -/
def preview (cfg : TemplateConfig) (vars : List (List Char × PyValue)) : List Char :=
  let merged_vars :=
    cfg.variables'.foldl
      (fun merged var =>
        match var.default with
        | some d => if (alookup var.name merged).isNone then merged ++ [(var.name, d)] else merged
        | Option.none => merged)
      vars
  TemplateRenderer.preview cfg.template merged_vars

end Template

end PromptTemplate

namespace PromptTemplate

/-! ## Token counting and analysis (`analyzer.py`)

`tiktoken` is an optional dependency; the spec's properties address the
heuristic fallback, so the embedding models the tokenizer as unavailable
(`count_tokens` always takes the estimation path). -/

/-- Python `int(q)`: truncation toward zero. -/
def pyInt (q : ℚ) : ℤ := if 0 ≤ q then ⌊q⌋ else -⌊-q⌋

/-- `TokenCounter._estimate_tokens`:
`int(len(text)/4.0 + len(re.findall(r"\s+", text)) * 0.25)`, with each
float operation rounded as IEEE binary64. -/
def estimate_tokens (text : List Char) : ℕ :=
  if text.isEmpty then 0
  else
    (pyInt (fl64 (fl64 ((text.length : ℚ) / 4) +
      fl64 ((wsRuns text : ℚ) * (1/4))))).toNat

/-- `TokenCounter.count_tokens` with the tokenizer unavailable. -/
def count_tokens (text : List Char) : ℕ :=
  if text.isEmpty then 0 else estimate_tokens text

/-- `MODEL_LIMITS`, in insertion order (the `default` entry is a real key
that also participates in fuzzy matching). -/
def MODEL_LIMITS : List (List Char × ℕ) :=
  [ (chars "gpt-4", 8192)
  , (chars "gpt-4-32k", 32768)
  , (chars "gpt-4-turbo", 128000)
  , (chars "gpt-4o", 128000)
  , (chars "gpt-4o-mini", 128000)
  , (chars "gpt-3.5-turbo", 16385)
  , (chars "claude-3-opus", 200000)
  , (chars "claude-3-sonnet", 200000)
  , (chars "claude-3-haiku", 200000)
  , (chars "claude-3.5-sonnet", 200000)
  , (chars "claude-2", 100000)
  , (chars "default", 8192) ]

/-- `get_model_limit`: exact lower-cased lookup, then the first table entry
whose key contains or is contained in the query, then the default. -/
def get_model_limit (model : List Char) : ℕ :=
  let model_lower := lowerStr model
  match MODEL_LIMITS.find? (fun kv => kv.1 = model_lower) with
  | some kv => kv.2
  | Option.none =>
    match MODEL_LIMITS.find?
        (fun kv => containsSub kv.1 model_lower || containsSub model_lower kv.1) with
    | some kv => kv.2
    | Option.none => 8192

/-- `TokenCounter.estimate_variable_tokens`.  The `sample_values` guard uses
Python truthiness (`None` and `\x7b\x7d` both skip the sample branch). -/
def estimate_variable_tokens (var : VariableConfig)
    (sample_values : List (List Char × PyValue)) : ℕ :=
  match (if sample_values.isEmpty then Option.none else alookup var.name sample_values) with
  | some v => count_tokens (pyStr v)
  | Option.none =>
    match var.default with
    | some d => count_tokens (pyStr d)
    | Option.none =>
      let base : ℕ :=
        match var.type with
        | VariableType.string => 50
        | VariableType.integer => 2
        | VariableType.float => 3
        | VariableType.boolean => 1
        | VariableType.list => 100
        | VariableType.object => 150
      if var.description.isEmpty then base
      else
        let desc_lower := lowerStr var.description
        if [chars "long", chars "large", chars "full", chars "complete",
            chars "code", chars "content"].any (fun w => containsSub w desc_lower) then
          base * 5
        else if [chars "short", chars "brief", chars "single"].any
            (fun w => containsSub w desc_lower) then
          base / 2
        else base

/-- Insert-or-overwrite into an association list (Python `d[k] = v`:
existing keys keep their position, new keys append). -/
def aset {α : Type} (k : List Char) (v : α) :
    List (List Char × α) → List (List Char × α)
  | [] => [(k, v)]
  | (k', v') :: rest => if k' = k then (k, v) :: rest else (k', v') :: aset k v rest

structure TokenEstimate where
  template_tokens : ℕ := 0
  system_prompt_tokens : Option ℕ := Option.none
  user_prompt_tokens : Option ℕ := Option.none
  estimated_variable_tokens : List (List Char × ℕ) := []
  total_static_tokens : ℕ := 0
  estimated_total : ℕ := 0
  model_fit : List (List Char × Bool) := []
deriving DecidableEq, Repr

/-- `TemplateAnalyzer._estimate_tokens`. -/
def analyzerEstimateTokens (cfg : TemplateConfig)
    (sample_values : List (List Char × PyValue)) : TokenEstimate :=
  let system_tokens : Option ℕ :=
    if optTruthy cfg.system_prompt then some (count_tokens (optStr cfg.system_prompt))
    else Option.none
  let user_tokens : Option ℕ :=
    if optTruthy cfg.user_prompt then some (count_tokens (optStr cfg.user_prompt))
    else Option.none
  let template_tokens : ℕ :=
    if !cfg.template.isEmpty then count_tokens cfg.template else 0
  let var_tokens : List (List Char × ℕ) :=
    cfg.variables'.foldl
      (fun d var => aset var.name (estimate_variable_tokens var sample_values) d) []
  let total_static : ℕ := (system_tokens.getD 0) + (user_tokens.getD 0) + template_tokens
  let placeholder_tokens : ℤ := (cfg.variables'.length : ℤ) * 2
  let estimated_total : ℤ :=
    (total_static : ℤ) - placeholder_tokens +
      ((var_tokens.map Prod.snd).foldl (· + ·) 0 : ℕ)
  { template_tokens := template_tokens
    system_prompt_tokens := system_tokens
    user_prompt_tokens := user_tokens
    estimated_variable_tokens := var_tokens
    total_static_tokens := total_static
    estimated_total := (max 0 estimated_total).toNat
    model_fit := [] }

/-- `TemplateAnalyzer._check_model_fit`:
`tokens < limit * 0.75` in float arithmetic (`0.75` and the product are
exactly representable for every table limit). -/
def check_model_fit (tokens : ℕ) (models : List (List Char)) :
    List (List Char × Bool) :=
  models.foldl
    (fun result model =>
      let limit := get_model_limit model
      aset model (decide ((tokens : ℚ) < fl64 ((limit : ℚ) * (3/4)))) result) []

end PromptTemplate

namespace PromptTemplate

/-! ## Shared regex scanners (analyzer / quality / semantic)

Each function models one `re` pattern from the source, specialised to the
scanning semantics of `findall`/`finditer`/`search`: positions are tried
left to right, a successful match advances past its end. -/

/-- Length of a `\x7b\x7b\s*name\s*\x7d\x7d` match starting here, if any. -/
def varUsageLen (name : List Char) (cs : List Char) : Option ℕ :=
  if prefixAt [lbrace, lbrace] cs then
    let r1 := (cs.drop 2).dropWhile isSpacePy
    if prefixAt name r1 then
      let r2 := (r1.drop name.length).dropWhile isSpacePy
      if prefixAt [rbrace, rbrace] r2 then some (cs.length - (r2.length - 2))
      else Option.none
    else Option.none
  else Option.none

/-- `len(re.findall(r"\x7b\x7b\s*" + name + r"\s*\x7d\x7d", s))`. -/
def countVarUsage (name : List Char) : ℕ → List Char → ℕ
  | 0, _ => 0
  | _ + 1, [] => 0
  | fuel + 1, c :: cs =>
    match varUsageLen name (c :: cs) with
    | some n => 1 + countVarUsage name fuel ((c :: cs).drop (max n 1))
    | Option.none => countVarUsage name fuel cs

def usageCount (name : List Char) (s : List Char) : ℕ :=
  countVarUsage name (s.length + 1) s

/-- `re.search` of the same pattern: at least one occurrence. -/
def hasVarUsage (name : List Char) (s : List Char) : Bool :=
  usageCount name s ≠ 0

/-- `len(re.findall(r"<[a-z_]+>", s, re.IGNORECASE))`. -/
def xmlTagCount : ℕ → List Char → ℕ
  | 0, _ => 0
  | _ + 1, [] => 0
  | fuel + 1, c :: cs =>
    if c = '<' then
      let run := cs.takeWhile (fun d =>
        ('a' ≤ d && d ≤ 'z') || ('A' ≤ d && d ≤ 'Z') || d = '_')
      if !run.isEmpty && prefixAt ['>'] (cs.drop run.length) then
        1 + xmlTagCount fuel ((cs.drop run.length).drop 1)
      else xmlTagCount fuel cs
    else xmlTagCount fuel cs

def xmlTags (s : List Char) : ℕ := xmlTagCount (s.length + 1) s

/-- `^#\x7b1,3\x7d\s` matches at this (line-start) position. -/
def headerAt (cs : List Char) : Bool :=
  let run := cs.takeWhile (· = '#')
  1 ≤ run.length && run.length ≤ 3 &&
    (match cs.drop run.length with
     | d :: _ => isSpacePy d
     | [] => false)

/-- Count line-start positions satisfying `p` (`re.MULTILINE` anchors:
offset 0 and every position following a newline). -/
def countLineStarts (p : List Char → Bool) : Bool → List Char → ℕ
  | _, [] => 0
  | atStart, c :: cs =>
    (if atStart && p (c :: cs) then 1 else 0) + countLineStarts p (c = '\n') cs

/-- `len(re.findall(r"^#\x7b1,3\x7d\s", s, re.MULTILINE))`. -/
def mdHeaders (s : List Char) : ℕ := countLineStarts headerAt true s

/-- `len(re.findall(r"^===", s, re.MULTILINE))`. -/
def sectionMarkers (s : List Char) : ℕ :=
  countLineStarts (fun cs => prefixAt (chars "===") cs) true s

/-- First keyword of `kws` (regex alternation order) that prefixes `cs`. -/
def firstKeywordAt (kws : List (List Char)) (cs : List Char) : Option (List Char) :=
  kws.find? (fun k => prefixAt k cs)

/-- `re.search(r"\x7b%\s*(kw1|kw2|…)\s*", s)`: some position opens a block
whose payload starts with one of the keywords. -/
def hasBlockTag (kws : List (List Char)) : List Char → Bool
  | [] => false
  | c :: cs =>
    (prefixAt [lbrace, '%'] (c :: cs) &&
      (firstKeywordAt kws (((c :: cs).drop 2).dropWhile isSpacePy)).isSome) ||
    hasBlockTag kws cs

/-- `re.search(r"\x7b%\s*for\s+", s)`: `for` must be followed by whitespace. -/
def hasForTag : List Char → Bool
  | [] => false
  | c :: cs =>
    (prefixAt [lbrace, '%'] (c :: cs) &&
      (let r := ((c :: cs).drop 2).dropWhile isSpacePy
       prefixAt (chars "for") r &&
         (match r.drop 3 with
          | d :: _ => isSpacePy d
          | [] => false))) ||
    hasForTag cs

/-- The tag sequence produced by `re.finditer(r"\x7b%\s*(kw…)\s*", s)`:
each `\x7b%` whose whitespace-stripped payload starts with a keyword yields
that keyword (first alternative wins), scanning left to right. -/
def blockTagSeq (kws : List (List Char)) : ℕ → List Char → List (List Char)
  | 0, _ => []
  | _ + 1, [] => []
  | fuel + 1, c :: cs =>
    if prefixAt [lbrace, '%'] (c :: cs) then
      match firstKeywordAt kws (((c :: cs).drop 2).dropWhile isSpacePy) with
      | some k => k :: blockTagSeq kws fuel cs
      | Option.none => blockTagSeq kws fuel cs
    else blockTagSeq kws fuel cs

/-- Fold of the analyzer's nesting-depth loop over a tag sequence:
increment on openers, decrement (floored at 0) on closers, track max. -/
def depthFold (openers closers : List (List Char)) :
    List (List Char) → ℕ → ℕ → ℕ
  | [], _, maxD => maxD
  | t :: ts, cur, maxD =>
    if memStr t openers then depthFold openers closers ts (cur + 1) (max maxD (cur + 1))
    else if memStr t closers then depthFold openers closers ts (cur - 1) maxD
    else depthFold openers closers ts cur maxD

/-- `TemplateAnalyzer._calculate_nesting_depth`. -/
def calculate_nesting_depth (content : List Char) : ℕ :=
  depthFold [chars "if", chars "for", chars "block"]
    [chars "endif", chars "endfor", chars "endblock"]
    (blockTagSeq
      [chars "if", chars "for", chars "block", chars "elif", chars "else",
       chars "endif", chars "endfor", chars "endblock"]
      (content.length + 1) content)
    0 0

/-- The quality scorer's copy of the nesting scan (`_score_structure`):
same loop, keyword set `(if|for|endif|endfor)`. -/
def structure_nesting_depth (content : List Char) : ℕ :=
  depthFold [chars "if", chars "for"] [chars "endif", chars "endfor"]
    (blockTagSeq [chars "if", chars "for", chars "endif", chars "endfor"]
      (content.length + 1) content)
    0 0

end PromptTemplate

namespace PromptTemplate

structure VariableAnalysis where
  name : List Char
  type : VariableType
  estimated_tokens : ℕ := 0
  usage_count : ℕ := 0
  in_system_prompt : Bool := false
  in_user_prompt : Bool := false
  description_quality : List Char := chars "missing"
deriving DecidableEq, Repr

structure StructuralAnalysis where
  has_system_prompt : Bool := false
  has_user_prompt : Bool := false
  has_template : Bool := false
  uses_conditionals : Bool := false
  uses_loops : Bool := false
  nesting_depth : ℕ := 0
  section_count : ℕ := 0
deriving DecidableEq, Repr

structure AnalysisResult where
  template_name : List Char
  token_estimate : TokenEstimate
  variable_analysis : List (List Char × VariableAnalysis)
  structural_analysis : StructuralAnalysis
  recommendations : List (List Char)
deriving DecidableEq, Repr

/-- `TemplateAnalyzer._analyze_variables`. -/
def analyze_variables (cfg : TemplateConfig)
    (sample_values : List (List Char × PyValue)) :
    List (List Char × VariableAnalysis) :=
  let all_content := cfg.allContent
  let system_content := optStr cfg.system_prompt
  let user_content := optStr cfg.user_prompt
  cfg.variables'.foldl
    (fun d var =>
      let desc_quality : List Char :=
        if var.description.isEmpty then chars "missing"
        else if var.description.length > 20 then chars "good"
        else chars "minimal"
      aset var.name
        { name := var.name
          type := var.type
          estimated_tokens := estimate_variable_tokens var sample_values
          usage_count := usageCount var.name all_content
          in_system_prompt := hasVarUsage var.name system_content
          in_user_prompt := hasVarUsage var.name user_content
          description_quality := desc_quality } d)
    []

/-- `TemplateAnalyzer._analyze_structure`. -/
def analyze_structure (cfg : TemplateConfig) : StructuralAnalysis :=
  let all_content := cfg.allContent
  { has_system_prompt := optTruthy cfg.system_prompt
    has_user_prompt := optTruthy cfg.user_prompt
    has_template := !cfg.template.isEmpty
    uses_conditionals := hasBlockTag [chars "if", chars "elif", chars "else"] all_content
    uses_loops := hasForTag all_content
    nesting_depth := calculate_nesting_depth all_content
    section_count := mdHeaders all_content + xmlTags all_content +
      sectionMarkers all_content }

/-- `TemplateAnalyzer._generate_recommendations`. -/
def generate_recommendations (cfg : TemplateConfig) (tokens : TokenEstimate)
    (vars : List (List Char × VariableAnalysis)) (structure' : StructuralAnalysis) :
    List (List Char) :=
  let r1 : List (List Char) :=
    if tokens.estimated_total > 10000 then
      [chars "Consider breaking this template into smaller, focused templates for better token efficiency."]
    else []
  let r2 : List (List Char) :=
    if !structure'.has_system_prompt && !structure'.has_user_prompt &&
        structure'.section_count = 0 && tokens.total_static_tokens > 500 then
      [chars "Consider adding structure with system_prompt/user_prompt split or markdown sections for better LLM comprehension."]
    else []
  let r3 : List (List Char) :=
    if structure'.nesting_depth > 3 then
      [chars "Template has deep nesting (depth: " ++ natToChars structure'.nesting_depth ++
        chars "). Consider simplifying conditional logic."]
    else []
  let r4 : List (List Char) :=
    vars.foldl
      (fun acc kv =>
        let va := kv.2
        let acc :=
          if va.description_quality = chars "missing" then
            acc ++ [chars "Variable '" ++ va.name ++
              chars "' lacks a description. Add one for better documentation."]
          else acc
        if va.usage_count > 5 then
          acc ++ [chars "Variable '" ++ va.name ++ chars "' is used " ++
            natToChars va.usage_count ++
            chars " times. Consider if this repetition is necessary."]
        else acc)
      []
  let r5 : List (List Char) :=
    if cfg.description.isEmpty then
      [chars "Template lacks a description. Add one for better discoverability."]
    else []
  r1 ++ r2 ++ r3 ++ r4 ++ r5

/-- `TemplateAnalyzer.analyze`.  `target_models or [...]` uses Python
truthiness: `None` and `[]` both select the default model list. -/
def analyze (cfg : TemplateConfig) (sample_values : List (List Char × PyValue))
    (target_models : List (List Char)) : AnalysisResult :=
  let token_estimate := analyzerEstimateTokens cfg sample_values
  let variable_analysis := analyze_variables cfg sample_values
  let structural_analysis := analyze_structure cfg
  let models_to_check :=
    if target_models.isEmpty then
      [chars "gpt-4", chars "gpt-4-turbo", chars "claude-3-sonnet"]
    else target_models
  let token_estimate :=
    { token_estimate with
      model_fit := check_model_fit token_estimate.estimated_total models_to_check }
  { template_name := cfg.name
    token_estimate := token_estimate
    variable_analysis := variable_analysis
    structural_analysis := structural_analysis
    recommendations :=
      generate_recommendations cfg token_estimate variable_analysis structural_analysis }

end PromptTemplate

namespace PromptTemplate

/-- `len(re.findall(p, s))` for a `\b…\b`-delimited literal, on
already-lowercased text (the patterns carry `re.IGNORECASE`). -/
def countWordBoundedAux (lit : List Char) : ℕ → Option Char → List Char → ℕ
  | 0, _, _ => 0
  | _ + 1, _, [] => 0
  | fuel + 1, prev, c :: cs =>
    let leftOk : Bool :=
      match prev with
      | Option.none => true
      | some p => !isWordChar p
    let rightOk : Bool :=
      match (c :: cs).drop lit.length with
      | [] => true
      | d :: _ => !isWordChar d
    if prefixAt lit (c :: cs) && leftOk && rightOk then
      1 + countWordBoundedAux lit fuel lit.getLast? ((c :: cs).drop (max lit.length 1))
    else
      countWordBoundedAux lit fuel (some c) cs

/-- After a match the scan resumes past it; the character left of the new
position is the literal's last character. -/
def countWordBounded (lit : List Char) (s : List Char) : ℕ :=
  countWordBoundedAux lit (s.length + 1) Option.none s

/-- Case-insensitive `re.search` of a literal pattern. -/
def searchCI (lit : List Char) (s : List Char) : Bool :=
  containsSub lit (lowerStr s)

end PromptTemplate

namespace PromptTemplate

/-! ## Quality scoring (`quality.py`)

`DimensionScore.details` / `suggestions` and `QualityReport.summary` /
`top_suggestions` are human-readable log strings that no verified property
reads; the records below keep the score-bearing fields. -/

inductive QualityDimension where
  | clarity | consistency | completeness | efficiency | structureDim
deriving DecidableEq, Repr

/-- The doubles denoted by the weight literals `0.25`, `0.20`, `0.15`. -/
def w25 : ℚ := fl64 (1/4)

def w20 : ℚ := fl64 (1/5)

def w15 : ℚ := fl64 (3/20)

/-- `DIMENSION_WEIGHTS[d]`. -/
def dimensionWeight : QualityDimension → ℚ
  | QualityDimension.clarity => w25
  | QualityDimension.consistency => w20
  | QualityDimension.completeness => w25
  | QualityDimension.efficiency => w15
  | QualityDimension.structureDim => w15

structure DimensionScore where
  dimension : QualityDimension
  score : ℤ
  weight : ℚ
deriving DecidableEq, Repr

/-- `QualityScorer._score_clarity`. -/
def score_clarity (cfg : TemplateConfig) : DimensionScore :=
  let all_content := cfg.allContent
  let has_role := [chars "you are", chars "act as", chars "<role>",
    chars "<persona>"].any (fun p => searchCI p all_content)
  let s1 : ℤ := if has_role then 100 else 100 - 15
  let has_task := [chars "your task is", chars "your goal is", chars "your job is",
    chars "please", chars "<task>", chars "<instructions>"].any
      (fun p => searchCI p all_content)
  let s2 : ℤ := if has_task then s1 else s1 - 15
  let has_output := [chars "<output_format>", chars "respond in",
    chars "format your"].any (fun p => searchCI p all_content)
  let s3 : ℤ := if has_output then s2 else s2 - 10
  let vars_with_desc : ℕ :=
    (cfg.variables'.filter (fun v => !v.description.isEmpty)).length
  let total_vars : ℕ := cfg.variables'.length
  let s4 : ℤ :=
    if total_vars > 0 &&
        decide (fl64 ((vars_with_desc : ℚ) / (total_vars : ℚ)) < 1/2) then
      s3 - 10
    else s3
  let lowered := lowerStr all_content
  let ambiguous_count : ℕ :=
    countWordBounded (chars "maybe") lowered +
    countWordBounded (chars "perhaps") lowered +
    countWordBounded (chars "might want to") lowered +
    countWordBounded (chars "could potentially") lowered
  let s5 : ℤ := if ambiguous_count > 2 then s4 - 10 else s4
  { dimension := QualityDimension.clarity, score := max 0 s5, weight := w25 }

/-- Sentences of `s` (split on `"."`, stripped, longer than 30 chars,
lower-cased) — the set comprehension shared by the consistency and
coherence checks. -/
def longSentences (s : List Char) : List (List Char) :=
  (((splitOn '.' s).map stripPy).filter (fun t => t.length > 30)).map lowerStr

/-- The enum-type-consistency condition of `_score_consistency`: a
string-typed variable with a truthy enum containing a non-string entry. -/
def inconsistentEnum (var : VariableConfig) : Bool :=
  var.type = VariableType.string &&
    (match var.enum with
     | some (e :: es) =>
       (e :: es).any (fun x => match x with | PyValue.str _ => false | _ => true)
     | _ => false)

/-- `QualityScorer._score_consistency`. -/
def score_consistency (cfg : TemplateConfig) : DimensionScore :=
  let var_names := cfg.variables'.map (fun v => v.name)
  let snake_case : ℕ := (var_names.filter (fun n => containsSub ['_'] n)).length
  let camelAt (n : List Char) : Bool :=
    (n.zip n.tail).any (fun p => ('a' ≤ p.1 && p.1 ≤ 'z') && ('A' ≤ p.2 && p.2 ≤ 'Z'))
  let camel_case : ℕ := (var_names.filter camelAt).length
  let s1 : ℤ := if snake_case > 0 && camel_case > 0 then 100 - 15 else 100
  let s2 : ℤ :=
    cfg.variables'.foldl
      (fun s var => if inconsistentEnum var then s - 10 else s)
      s1
  let s3 : ℤ :=
    match cfg.system_prompt, cfg.user_prompt with
    | some sys, some usr =>
      if !sys.isEmpty && !usr.isEmpty then
        let sys_has_xml := containsSub ['<'] sys && containsSub ['>'] sys
        let user_has_xml := containsSub ['<'] usr && containsSub ['>'] usr
        if sys_has_xml ≠ user_has_xml then s2 - 10 else s2
      else s2
    | _, _ => s2
  let s4 : ℤ :=
    match cfg.system_prompt, cfg.user_prompt with
    | some sys, some usr =>
      if !sys.isEmpty && !usr.isEmpty then
        let overlap := (longSentences sys).any (fun t => memStr t (longSentences usr))
        if overlap then s3 - 10 else s3
      else s3
    | _, _ => s3
  { dimension := QualityDimension.consistency, score := max 0 s4, weight := w20 }

/-- The constrained-name condition of `_score_completeness`: a variable
named `style`/`format`/`type`/`mode`/`level` with a falsy enum. -/
def constrainedNoEnum (var : VariableConfig) : Bool :=
  memStr var.name [chars "style", chars "format", chars "type",
    chars "mode", chars "level"] &&
    (match var.enum with
     | some (_ :: _) => false
     | _ => true)

/-- `QualityScorer._score_completeness`. -/
def score_completeness (cfg : TemplateConfig) : DimensionScore :=
  let s1 : ℤ :=
    if cfg.description.isEmpty then 100 - 10
    else if cfg.description.length < 20 then 100 - 5
    else 100
  let s2 : ℤ := if cfg.tags.isEmpty then s1 - 5 else s1
  let missing_desc_vars :=
    (cfg.variables'.filter (fun v => v.description.isEmpty)).map (fun v => v.name)
  let s3 : ℤ :=
    cfg.variables'.foldl
      (fun s var => if constrainedNoEnum var then s - 5 else s)
      s2
  let s4 : ℤ :=
    if !missing_desc_vars.isEmpty then
      s3 - min 15 ((missing_desc_vars.length : ℤ) * 3)
    else s3
  let vars_with_defaults : ℕ :=
    (cfg.variables'.filter (fun v => v.default.isSome)).length
  let optional_vars : ℕ := (cfg.variables'.filter (fun v => !v.required)).length
  let s5 : ℤ := if optional_vars > 0 && vars_with_defaults = 0 then s4 - 5 else s4
  let all_content := cfg.allContent
  let has_structure : Bool :=
    (containsSub ['<'] all_content && containsSub ['>'] all_content) ||
    (containsSub (chars "##") all_content || containsSub (chars "===") all_content)
  let s6 : ℤ := if all_content.length > 500 && !has_structure then s5 - 10 else s5
  { dimension := QualityDimension.completeness, score := max 0 s6, weight := w25 }

/-- The per-variable overuse condition of `_score_efficiency`:
`\x7b\x7bname\x7d\x7d` occurs more than 5 times. -/
def isOverused (content : List Char) (var : VariableConfig) : Bool :=
  usageCount var.name content > 5

/-- `QualityScorer._score_efficiency` (its `sample_values` parameter is
never read by the body). -/
def score_efficiency (cfg : TemplateConfig) : DimensionScore :=
  let all_content := cfg.allContent
  let token_count := count_tokens all_content
  let s1 : ℤ :=
    if token_count > 10000 then 100 - 30
    else if token_count > 5000 then 100 - 15
    else 100
  let words := splitWs (lowerStr all_content)
  let longWords := (dedup words).filter (fun w => w.length > 4)
  let anyHighRepeat : Bool :=
    longWords.any (fun w => (words.filter (fun x => x = w)).length > 10)
  let s2 : ℤ := if anyHighRepeat then s1 - 10 else s1
  let s3 : ℤ :=
    cfg.variables'.foldl
      (fun s var => if isOverused all_content var then s - 5 else s)
      s2
  let jinja_blocks := countSub [lbrace, '%'] all_content
  let s4 : ℤ := if jinja_blocks > 10 then s3 - 15 else s3
  { dimension := QualityDimension.efficiency, score := max 0 s4, weight := w15 }

/-- `QualityScorer._score_structure`: `+5` bonus for a proper
system/user split, `-10` for system without user, content penalties,
clamped to `[0, 100]` at the end. -/
def score_structure (cfg : TemplateConfig) : DimensionScore :=
  let s1 : ℤ :=
    if optTruthy cfg.system_prompt || optTruthy cfg.user_prompt then
      if optTruthy cfg.system_prompt && optTruthy cfg.user_prompt then 100 + 5
      else if optTruthy cfg.system_prompt && !optTruthy cfg.user_prompt then 100 - 10
      else 100
    else 100
  let all_content := cfg.allContent
  let total_structure : ℕ :=
    xmlTags all_content + mdHeaders all_content + sectionMarkers all_content
  let s2 : ℤ :=
    if all_content.length > 1000 && total_structure < 3 then s1 - 15 else s1
  let max_depth := structure_nesting_depth all_content
  let s3 : ℤ := if max_depth > 3 then s2 - 15 else s2
  { dimension := QualityDimension.structureDim
    score := min 100 (max 0 s3)
    weight := w15 }

structure QualityReport where
  template_name : List Char
  overall_score : ℤ
  grade : List Char
  dimensions : List (QualityDimension × DimensionScore)
deriving DecidableEq, Repr

/-- `QualityReport.is_production_ready`. -/
def QualityReport.is_production_ready (r : QualityReport) : Bool :=
  r.overall_score ≥ 70

/-- `GRADE_THRESHOLDS`. -/
def GRADE_THRESHOLDS : List (ℤ × List Char) :=
  [(90, chars "A"), (80, chars "B"), (70, chars "C"), (60, chars "D"), (0, chars "F")]

/-- The grade loop: first threshold not exceeding the score wins; the
initial value `"F"` survives only if no threshold matches. -/
def gradeFold (overall : ℤ) : List (ℤ × List Char) → List Char → List Char
  | [], g => g
  | (t, gg) :: rest, g => if overall ≥ t then gg else gradeFold overall rest g

/-- `QualityScorer.score`: the five dimensions, then
`int(sum(score.score * score.weight for …))` evaluated in IEEE binary64
(`sum` starts from the exact integer `0`; each product and each running
addition rounds). -/
def score (cfg : TemplateConfig) : QualityReport :=
  let dC := score_clarity cfg
  let dN := score_consistency cfg
  let dP := score_completeness cfg
  let dE := score_efficiency cfg
  let dS := score_structure cfg
  let t1 := fl64 ((dC.score : ℚ) * dC.weight)
  let t2 := fl64 (t1 + fl64 ((dN.score : ℚ) * dN.weight))
  let t3 := fl64 (t2 + fl64 ((dP.score : ℚ) * dP.weight))
  let t4 := fl64 (t3 + fl64 ((dE.score : ℚ) * dE.weight))
  let t5 := fl64 (t4 + fl64 ((dS.score : ℚ) * dS.weight))
  let overall : ℤ := pyInt t5
  { template_name := cfg.name
    overall_score := overall
    grade := gradeFold overall GRADE_THRESHOLDS (chars "F")
    dimensions :=
      [ (QualityDimension.clarity, dC)
      , (QualityDimension.consistency, dN)
      , (QualityDimension.completeness, dP)
      , (QualityDimension.efficiency, dE)
      , (QualityDimension.structureDim, dS) ] }

end PromptTemplate

namespace PromptTemplate

/-! ## Semantic validation (`semantic.py`)

The compiled `re.IGNORECASE` pattern lists become scanners over lowercased
text.  Alternation groups expand to literal alternatives; `\s+` demands at
least one whitespace character; `\w+` a maximal word-character run. -/

/-- `\s+(alt1|alt2|…)\s+` continues here (after the leading literal). -/
def wsAltWs (alts : List (List Char)) (cs : List Char) : Bool :=
  match cs with
  | [] => false
  | c :: _ =>
    isSpacePy c &&
      (let r := cs.dropWhile isSpacePy
       alts.any (fun a =>
         prefixAt a r &&
           (match r.drop a.length with
            | d :: _ => isSpacePy d
            | [] => false)))

/-- `re.search` of `lead\s+(alt…)\s+` on lowercased text. -/
def searchLeadAlt (lead : List Char) (alts : List (List Char)) : List Char → Bool
  | [] => false
  | c :: cs =>
    (prefixAt lead (c :: cs) && wsAltWs alts ((c :: cs).drop lead.length)) ||
    searchLeadAlt lead alts cs

/-- The continuation of `as\s+(a|an)\s+\w+,?\s+you` after the literal
`as`: at least one whitespace, `a` or `an`, at least one whitespace, a
maximal word-character run (a shorter split of `\w+` would leave a word
character where `,?\s` is required), an optional comma, at least one
whitespace, then `you`. -/
def asAYouTail (cs : List Char) : Bool :=
  match cs with
  | [] => false
  | d :: ds =>
    isSpacePy d &&
      (let r1 := (d :: ds).dropWhile isSpacePy
       [chars "a", chars "an"].any (fun a =>
         prefixAt a r1 &&
           (match r1.drop a.length with
            | [] => false
            | e :: es =>
              isSpacePy e &&
                (let r2 := (e :: es).dropWhile isSpacePy
                 let run := r2.takeWhile isWordChar
                 let r3 := r2.drop run.length
                 let r4 := if prefixAt [','] r3 then r3.drop 1 else r3
                 !run.isEmpty &&
                   (match r4 with
                    | [] => false
                    | f :: fs =>
                      isSpacePy f &&
                        prefixAt (chars "you") ((f :: fs).dropWhile isSpacePy))))))

/-- `re.search(r"as\s+(a|an)\s+\w+,?\s+you", s, re.IGNORECASE)` on
lowercased text. -/
def searchAsAYou : List Char → Bool
  | [] => false
  | c :: cs =>
    (prefixAt (chars "as") (c :: cs) && asAYouTail ((c :: cs).drop 2)) ||
    searchAsAYou cs

/-- `re.search(r"please\s+\w+", s)` on lowercased text. -/
def searchPleaseWord : List Char → Bool
  | [] => false
  | c :: cs =>
    (prefixAt (chars "please") (c :: cs) &&
      (match (c :: cs).drop 6 with
       | [] => false
       | d :: ds =>
         isSpacePy d &&
           (match (d :: ds).dropWhile isSpacePy with
            | e :: _ => isWordChar e
            | [] => false))) ||
    searchPleaseWord cs

/-- `ROLE_PATTERNS` applied to a text (any pattern matches). -/
def roleSearch (s : List Char) : Bool :=
  let t := lowerStr s
  searchLeadAlt (chars "you are") [chars "a", chars "an", chars "the"] t ||
  searchLeadAlt (chars "act as") [chars "a", chars "an", chars "the"] t ||
  containsSub (chars "<role>") t ||
  containsSub (chars "<persona>") t ||
  containsSub (chars "your role is") t ||
  searchLeadAlt (chars "you will be") [chars "a", chars "an", chars "the"] t ||
  searchAsAYou t

/-- `TASK_PATTERNS` applied to a text. -/
def taskSearch (s : List Char) : Bool :=
  let t := lowerStr s
  [chars "your task is", chars "your job is", chars "your goal is",
   chars "your objective is", chars "you should", chars "you must",
   chars "you will", chars "you need to", chars "<task>", chars "<instructions>",
   chars "i want you to", chars "i need you to"].any (fun p => containsSub p t) ||
  searchPleaseWord t

/-- `OUTPUT_PATTERNS` applied to a text. -/
def outputSearch (s : List Char) : Bool :=
  let t := lowerStr s
  [chars "<output_format>", chars "<output>",
   chars "respond in this format", chars "respond in the following format",
   chars "format your response", chars "format your answer", chars "format your output",
   chars "your response should", chars "your answer should", chars "your output should",
   chars "use this format", chars "use this structure",
   chars "use the following format", chars "use the following structure",
   chars "return the result as", chars "return the result in",
   chars "return your answer as", chars "return your answer in"].any
    (fun p => containsSub p t)

/-- Total `findall` count over `AMBIGUOUS_PATTERNS`. -/
def semanticAmbiguousCount (s : List Char) : ℕ :=
  let t := lowerStr s
  countWordBounded (chars "maybe") t +
  countWordBounded (chars "perhaps") t +
  countWordBounded (chars "might want to") t +
  countWordBounded (chars "could potentially") t +
  countWordBounded (chars "possibly") t +
  countWordBounded (chars "if you want") t

/-- `re.findall(r"\b[a-z]\x7b4,\x7d\b", s)` as a set: maximal lowercase-letter
runs of length at least 4 with non-word neighbours. -/
def wordTermsAux : ℕ → Option Char → List Char → List (List Char)
  | 0, _, _ => []
  | _ + 1, _, [] => []
  | fuel + 1, prev, c :: cs =>
    if 'a' ≤ c && c ≤ 'z' then
      let run := (c :: cs).takeWhile (fun d => 'a' ≤ d && d ≤ 'z')
      let rest := (c :: cs).drop (max run.length 1)
      let leftOk : Bool :=
        match prev with
        | Option.none => true
        | some p => !isWordChar p
      let rightOk : Bool :=
        match rest with
        | d :: _ => !isWordChar d
        | [] => true
      let tail := wordTermsAux fuel (some (run.getLastD c)) rest
      if run.length ≥ 4 && leftOk && rightOk then run :: tail else tail
    else wordTermsAux fuel (some c) cs

def wordTerms (s : List Char) : List (List Char) :=
  dedup (wordTermsAux (s.length + 1) Option.none s)

/-- `re.findall(r"\x7b\x7b\s*(\w+)\s*\x7d\x7d", s)`: captured names. -/
def varUsageNames : ℕ → List Char → List (List Char)
  | 0, _ => []
  | _ + 1, [] => []
  | fuel + 1, c :: cs =>
    if prefixAt [lbrace, lbrace] (c :: cs) then
      let r := ((c :: cs).drop 2).dropWhile isSpacePy
      let run := r.takeWhile isWordChar
      let r2 := (r.drop run.length).dropWhile isSpacePy
      if !run.isEmpty && prefixAt [rbrace, rbrace] r2 then
        run :: varUsageNames fuel (r2.drop 2)
      else varUsageNames fuel cs
    else varUsageNames fuel cs

end PromptTemplate

namespace PromptTemplate

/-- Greedy prefix for `.{0,20}core.{0,20}` (DOTALL): the largest
`d ≤ min(20, len)` such that the core matches after `d` context
characters, with the core's match length. -/
def bestCtxD (name : List Char) (cs : List Char) : Option (ℕ × ℕ) :=
  ((List.range (min 20 cs.length + 1)).reverse).findSome?
    (fun d => (varUsageLen name (cs.drop d)).map (fun l => (d, l)))

/-- `re.findall(r".\x7b0,20\x7d" + core + r".\x7b0,20\x7d", s, re.DOTALL)`:
leftmost scan; on a match the greedy prefix, core and greedy suffix are
consumed. -/
def ctxMatches (name : List Char) : ℕ → List Char → List (List Char)
  | 0, _ => []
  | _ + 1, [] => []
  | fuel + 1, c :: cs =>
    match bestCtxD name (c :: cs) with
    | some (d, l) =>
      let suffix := min 20 ((c :: cs).length - (d + l))
      (c :: cs).take (d + l + suffix) ::
        ctxMatches name fuel ((c :: cs).drop (max (d + l + suffix) 1))
    | Option.none => ctxMatches name fuel cs

inductive SemanticIssueType where
  | role_confusion | instruction_clarity | context_coherence
  | task_alignment | placeholder_quality | prompt_structure
deriving DecidableEq, Repr

structure SemanticIssue where
  type : SemanticIssueType
  severity : List Char
  message : List Char
  location : List Char
  suggestion : Option (List Char) := Option.none
deriving DecidableEq, Repr

structure SemanticValidationResult where
  is_valid : Bool := true
  issues : List SemanticIssue := []
  role_clarity_score : ℤ := 100
  instruction_clarity_score : ℤ := 100
  context_coherence_score : ℤ := 100
  task_alignment_score : ℤ := 100
deriving DecidableEq, Repr

namespace SemanticValidationResult

/-- `SemanticValidationResult.add_issue`. -/
def add_issue (r : SemanticValidationResult) (i : SemanticIssue) :
    SemanticValidationResult :=
  { r with
    issues := r.issues ++ [i]
    is_valid := if i.severity = chars "error" then false else r.is_valid }

/-- `SemanticValidationResult.to_validation_result`. -/
def to_validation_result (r : SemanticValidationResult) : ValidationResult :=
  r.issues.foldl
    (fun acc issue =>
      let msg := chars "[Semantic] " ++ issue.message ++
        (match issue.suggestion with
         | some s => chars " (Suggestion: " ++ s ++ chars ")"
         | Option.none => [])
      if issue.severity = chars "error" then acc.add_error msg
      else acc.add_warning msg)
    { is_valid := r.is_valid }

end SemanticValidationResult

namespace SemanticValidator

/-- `SemanticValidator._check_role_definition`. -/
def check_role_definition (cfg : TemplateConfig) (r : SemanticValidationResult) :
    SemanticValidationResult :=
  let system_content := optStr cfg.system_prompt
  let user_content := optStr cfg.user_prompt
  let template_content := cfg.template
  let has_role_in_system := roleSearch system_content
  let has_role_in_user := roleSearch user_content
  let has_role_in_template := roleSearch template_content
  let has_role := has_role_in_system || has_role_in_template
  let r :=
    if has_role then { r with role_clarity_score := 100 }
    else
      ({ r with role_clarity_score := 60 }).add_issue
        { type := SemanticIssueType.role_confusion
          severity := chars "info"
          message := chars "No clear role definition found in the prompt"
          location := if optTruthy cfg.system_prompt then chars "system_prompt"
            else chars "template"
          suggestion := some (chars "Add 'You are a [role]' to establish context") }
  if has_role_in_user && optTruthy cfg.system_prompt then
    ({ r with role_clarity_score := r.role_clarity_score - 20 }).add_issue
      { type := SemanticIssueType.role_confusion
        severity := chars "warning"
        message := chars "Role definition found in user_prompt, not system_prompt"
        location := chars "user_prompt"
        suggestion := some (chars "Move role definition to system_prompt") }
  else r

/-- `SemanticValidator._check_instruction_clarity`. -/
def check_instruction_clarity (cfg : TemplateConfig)
    (r : SemanticValidationResult) : SemanticValidationResult :=
  let all_content := cfg.allContent
  let has_task := taskSearch all_content
  let has_output_format := outputSearch all_content
  let ambiguous_count := semanticAmbiguousCount all_content
  let score1 : ℤ := 100
  let (score2, r) :=
    if !has_task then
      (score1 - 25,
        r.add_issue
          { type := SemanticIssueType.instruction_clarity
            severity := chars "info"
            message := chars "No clear task instructions found"
            location := chars "template"
            suggestion := some (chars "Add 'Your task is to...' or 'Please...'") })
    else (score1, r)
  let (score3, r) :=
    if !has_output_format then
      (score2 - 15,
        r.add_issue
          { type := SemanticIssueType.instruction_clarity
            severity := chars "info"
            message := chars "No output format specification found"
            location := if optTruthy cfg.user_prompt then chars "user_prompt"
              else chars "template"
            suggestion := some (chars "Consider specifying expected output format") })
    else (score2, r)
  let (score4, r) :=
    if ambiguous_count > 2 then
      (score3 - 10,
        r.add_issue
          { type := SemanticIssueType.instruction_clarity
            severity := chars "info"
            message := chars "Found " ++ natToChars ambiguous_count ++
              chars " ambiguous phrases"
            location := chars "template"
            suggestion := some
              (chars "Replace ambiguous language with direct instructions") })
    else (score3, r)
  { r with instruction_clarity_score := max 0 score4 }

/-- `SemanticValidator._check_context_coherence`.  (`.lower()` before the
sentence split commutes with splitting on `"."` and stripping, so the
shared `longSentences` helper applies.) -/
def check_context_coherence (cfg : TemplateConfig)
    (r : SemanticValidationResult) : SemanticValidationResult :=
  let (score, r) :=
    if optTruthy cfg.system_prompt && optTruthy cfg.user_prompt then
      let sys_sentences := longSentences (optStr cfg.system_prompt)
      let user_sentences := longSentences (optStr cfg.user_prompt)
      if sys_sentences.any (fun t => memStr t user_sentences) then
        ((100 : ℤ) - 15,
          r.add_issue
            { type := SemanticIssueType.context_coherence
              severity := chars "info"
              message := chars "Content duplication between prompts"
              location := chars "user_prompt"
              suggestion := some (chars "Review and deduplicate repeated content") })
      else ((100 : ℤ), r)
    else ((100 : ℤ), r)
  { r with context_coherence_score := max 0 score }

/-- The double denoted by the literal `0.3`. -/
def w03 : ℚ := fl64 (3/10)

/-- `SemanticValidator._check_task_alignment`. -/
def check_task_alignment (cfg : TemplateConfig)
    (r : SemanticValidationResult) : SemanticValidationResult :=
  let desc_lower := lowerStr cfg.description
  let content_lower := lowerStr cfg.allContent
  let (score, r) :=
    if !desc_lower.isEmpty then
      let key_terms := wordTerms desc_lower
      let content_terms := wordTerms content_lower
      if !key_terms.isEmpty then
        let overlap := key_terms.filter (fun t => memStr t content_terms)
        if fl64 ((overlap.length : ℚ) / (key_terms.length : ℚ)) < w03 then
          ((100 : ℤ) - 20,
            r.add_issue
              { type := SemanticIssueType.task_alignment
                severity := chars "info"
                message := chars "Description may not align with template content"
                location := chars "description"
                suggestion := some (chars "Update description to reflect functionality") })
        else ((100 : ℤ), r)
      else ((100 : ℤ), r)
    else
      ((100 : ℤ) - 10,
        r.add_issue
          { type := SemanticIssueType.task_alignment
            severity := chars "info"
            message := chars "Template lacks a description"
            location := chars "description"
            suggestion := some
              (chars "Add a description to clarify the template's purpose") })
  { r with task_alignment_score := max 0 score }

/-- `SemanticValidator._check_placeholder_quality`.  Python iterates
`set(var_usages)` in unspecified hash order; the embedding iterates first
occurrences — only membership of the resulting issues is relied upon. -/
def check_placeholder_quality (cfg : TemplateConfig)
    (r : SemanticValidationResult) : SemanticValidationResult :=
  let all_content := cfg.allContent
  let var_usages := dedup (varUsageNames (all_content.length + 1) all_content)
  var_usages.foldl
    (fun r var_name =>
      match cfg.get_variable var_name with
      | Option.none => r
      | some _ =>
        let ctxms := ctxMatches var_name (all_content.length + 1) all_content
        let standalone := ctxms.any (fun m =>
          let st := stripPy m
          varUsageLen var_name st = some st.length)
        if standalone then
          r.add_issue
            { type := SemanticIssueType.placeholder_quality
              severity := chars "info"
              message := chars "Variable '" ++ var_name ++
                chars "' appears without context"
              location := chars "template"
              suggestion := some (chars "Add context like '" ++ var_name ++
                chars ": " ++ [lbrace, lbrace, ' '] ++ var_name ++
                [' ', rbrace, rbrace] ++ chars "'") }
        else r)
    r

/-- `SemanticValidator._check_prompt_structure`. -/
def check_prompt_structure (cfg : TemplateConfig)
    (r : SemanticValidationResult) : SemanticValidationResult :=
  let r :=
    if optTruthy cfg.system_prompt && !optTruthy cfg.user_prompt then
      r.add_issue
        { type := SemanticIssueType.prompt_structure
          severity := chars "info"
          message := chars "system_prompt defined but user_prompt is empty"
          location := chars "user_prompt"
          suggestion := some (chars "Add user_prompt for complete chat structure") }
    else r
  let all_content := cfg.allContent
  if all_content.length > 3000 && !optTruthy cfg.system_prompt then
    let has_structure : Bool :=
      (containsSub ['<'] all_content && containsSub ['>'] all_content) ||
      (containsSub (chars "##") all_content || containsSub (chars "===") all_content)
    if !has_structure then
      r.add_issue
        { type := SemanticIssueType.prompt_structure
          severity := chars "info"
          message := chars "Long template without clear structure"
          location := chars "template"
          suggestion := some (chars "Split into system/user prompts or add sections") }
    else r
  else r

/-- `SemanticValidator.validate`: the six checks in order. -/
def validate (cfg : TemplateConfig) : SemanticValidationResult :=
  let r : SemanticValidationResult := {}
  let r := check_role_definition cfg r
  let r := check_instruction_clarity cfg r
  let r := check_context_coherence cfg r
  let r := check_task_alignment cfg r
  let r := check_placeholder_quality cfg r
  check_prompt_structure cfg r

end SemanticValidator

end PromptTemplate

namespace PromptTemplate

/-! ## Exact values of the float weights and their products

The weights `0.25 / 0.20 / 0.15` and the per-dimension scores they multiply
satisfy: scores are integers, and the consistency/efficiency/structure
scores are multiples of 5.  Under these conditions every product and sum
in the scorer's `sum(score * weight …)` is exactly representable, so
`int(...)` computes the true floor of the exact weighted sum. -/

theorem fl64_zero : fl64 0 = 0 := by simp [fl64]

theorem fl64_of_dyadic (a k : ℤ) (h0 : 0 ≤ a) (ha : a < 2 ^ 53) :
    fl64 ((a : ℚ) * (2 : ℚ) ^ k) = (a : ℚ) * (2 : ℚ) ^ k := by
  rcases eq_or_lt_of_le h0 with h | h
  · rw [← h]; simp [fl64]
  · have hq : (0 : ℚ) < (a : ℚ) * (2 : ℚ) ^ k := by
      have : (0 : ℚ) < (a : ℚ) := by exact_mod_cast h
      positivity
    have hm : ((a.toNat : ℤ)) < 2 ^ 53 := by omega
    have hcast : ((a.toNat : ℚ)) = (a : ℚ) := by
      have h' : ((a.toNat : ℤ)) = a := Int.toNat_of_nonneg h0
      exact_mod_cast congrArg (fun z : ℤ => (z : ℚ)) h' 
    rw [fl64, if_neg (by positivity), if_pos hq, ← hcast]
    exact fl64Pos_dyadic a.toNat k (by omega) hm

theorem int_log_eq (q : ℚ) (e : ℤ) (hq : 0 < q) (h1 : (2 : ℚ) ^ e ≤ q)
    (h2 : q < (2 : ℚ) ^ (e + 1)) : Int.log 2 q = e := by
  have ha : e ≤ Int.log 2 q := (Int.zpow_le_iff_le_log (by norm_num) hq).mp h1
  have hb : Int.log 2 q < e + 1 := (Int.lt_zpow_iff_log_lt (by norm_num) hq).mp h2
  omega

theorem roundNE_of_frac_lt (q : ℚ) (a : ℤ) (h1 : ⌊q⌋ = a) (h2 : q - a < 1/2) :
    roundNE q = a := by
  unfold roundNE
  rw [h1, if_pos h2]

theorem roundNE_of_frac_gt (q : ℚ) (a : ℤ) (h1 : ⌊q⌋ = a) (h2 : 1/2 < q - a) :
    roundNE q = a + 1 := by
  unfold roundNE
  rw [h1, if_neg (by linarith), if_pos h2]

theorem fl64_pos_spec (q : ℚ) (e a : ℤ) (hq : 0 < q) (h1 : (2 : ℚ) ^ e ≤ q)
    (h2 : q < (2 : ℚ) ^ (e + 1)) (hr : roundNE (q * (2 : ℚ) ^ (52 - e)) = a) :
    fl64 q = (a : ℚ) * (2 : ℚ) ^ (e - 52) := by
  rw [fl64, if_neg (by positivity), if_pos hq]
  unfold fl64Pos
  rw [int_log_eq q e hq h1 h2, hr]

theorem w25_val : w25 = 1/4 := by
  have h : ((1 : ℤ) : ℚ) * (2 : ℚ) ^ (-2 : ℤ) = 1/4 := by norm_num
  have := fl64_of_dyadic 1 (-2) (by norm_num) (by norm_num)
  rw [h] at this
  rw [w25, this]

theorem w20_val : w20 = 7205759403792794 / 2 ^ 55 := by
  have hfloor : ⌊(1/5 : ℚ) * (2 : ℚ) ^ ((52 : ℤ) - (-3))⌋ = 7205759403792793 := by
    have : ((52 : ℤ) - (-3)) = (55 : ℤ) := by norm_num
    rw [this, Int.floor_eq_iff]
    norm_num
  have hr : roundNE ((1/5 : ℚ) * (2 : ℚ) ^ ((52 : ℤ) - (-3))) = 7205759403792794 := by
    have h2 := roundNE_of_frac_gt _ _ hfloor (by
      have : ((52 : ℤ) - (-3)) = (55 : ℤ) := by norm_num
      rw [this]; norm_num)
    simpa using h2
  have := fl64_pos_spec (1/5) (-3) 7205759403792794 (by norm_num)
    (by norm_num) (by norm_num) hr
  rw [w20, this]
  norm_num

theorem w15_val : w15 = 5404319552844595 / 2 ^ 55 := by
  have hfloor : ⌊(3/20 : ℚ) * (2 : ℚ) ^ ((52 : ℤ) - (-3))⌋ = 5404319552844595 := by
    have : ((52 : ℤ) - (-3)) = (55 : ℤ) := by norm_num
    rw [this, Int.floor_eq_iff]
    norm_num
  have hr : roundNE ((3/20 : ℚ) * (2 : ℚ) ^ ((52 : ℤ) - (-3))) = 5404319552844595 := by
    apply roundNE_of_frac_lt _ _ hfloor
    have : ((52 : ℤ) - (-3)) = (55 : ℤ) := by norm_num
    rw [this]; norm_num
  have := fl64_pos_spec (3/20) (-3) 5404319552844595 (by norm_num)
    (by norm_num) (by norm_num) hr
  rw [w15, this]
  norm_num

/-- The five weights sum to exactly 1 — even as doubles: the rounding
errors of `0.2` (upward) and of the two copies of `0.15` (downward)
cancel. -/
theorem weights_sum_one : w25 + w20 + w25 + w15 + w15 = 1 := by
  rw [w25_val, w20_val, w15_val]
  norm_num

end PromptTemplate

namespace PromptTemplate

/-- Multiplying an integer `k ≤ 2^50` by `(2^54+1)/2^54` — the value of
`5 * fl64(0.2)` — rounds back to `k` exactly: the perturbation `k·2^-54`
stays below half an ulp. -/
theorem fl64_one_plus_eps (k : ℤ) (hk1 : 1 ≤ k) (hk2 : k ≤ 2 ^ 50) :
    fl64 ((k : ℚ) * ((2 ^ 54 + 1) / 2 ^ 54)) = (k : ℚ) := by
  have hk0 : (0 : ℚ) < (k : ℚ) := by exact_mod_cast hk1
  set e : ℤ := Int.log 2 (k : ℚ) with hedef
  have he1 : (2 : ℚ) ^ e ≤ (k : ℚ) := Int.zpow_log_le_self (by norm_num) hk0
  have he2 : (k : ℚ) < (2 : ℚ) ^ (e + 1) := Int.lt_zpow_succ_log_self (by norm_num) _
  have he0 : 0 ≤ e := by
    rw [hedef]
    have h1 : ((2 : ℚ)) ^ (0 : ℤ) ≤ (k : ℚ) := by
      rw [zpow_zero]; exact_mod_cast hk1
    exact (Int.zpow_le_iff_le_log (by norm_num) hk0).mp h1
  have he50 : e ≤ 50 := by
    by_contra hcon
    push_neg at hcon
    have hb : (2 : ℚ) ^ (51 : ℤ) ≤ (2 : ℚ) ^ e :=
      zpow_le_zpow_right₀ (by norm_num : (1 : ℚ) ≤ 2) (by omega)
    have hc : (2 : ℚ) ^ (51 : ℤ) ≤ (k : ℚ) := le_trans hb he1
    have h0 : (k : ℚ) ≤ ((2 ^ 50 : ℤ) : ℚ) := by exact_mod_cast hk2
    have h2 : ((2 ^ 50 : ℤ) : ℚ) < (2 : ℚ) ^ (51 : ℤ) := by norm_num
    linarith
  set q : ℚ := (k : ℚ) * ((2 ^ 54 + 1) / 2 ^ 54) with hqdef
  have hqsplit : q = (k : ℚ) + (k : ℚ) / 2 ^ 54 := by
    rw [hqdef]; ring
  have hq0 : 0 < q := by rw [hqsplit]; positivity
  -- over ℚ the strict integer bound gives k ≤ 2^(e+1) - 1
  have hzn : (2 : ℚ) ^ (e + 1) = (((2 ^ (e + 1).toNat : ℤ)) : ℚ) := by
    push_cast
    rw [← zpow_natCast (2 : ℚ) (e + 1).toNat]
    congr 1
    omega
  have hkint : (k : ℚ) ≤ (2 : ℚ) ^ (e + 1) - 1 := by
    rw [hzn] at he2 ⊢
    have h4 : k < 2 ^ (e + 1).toNat := by exact_mod_cast he2
    have h5 : k ≤ 2 ^ (e + 1).toNat - 1 := by omega
    have h6 : (k : ℚ) ≤ (((2 ^ (e + 1).toNat - 1 : ℤ)) : ℚ) := by exact_mod_cast h5
    push_cast at h6 ⊢
    linarith
  have hkeps : (k : ℚ) / 2 ^ 54 ≤ 1 / 16 := by
    rw [div_le_iff₀ (by positivity)]
    have h0 : (k : ℚ) ≤ ((2 ^ 50 : ℤ) : ℚ) := by exact_mod_cast hk2
    push_cast at h0
    nlinarith
  have hup : q < (2 : ℚ) ^ (e + 1) := by
    rw [hqsplit]
    linarith
  have hlo : (2 : ℚ) ^ e ≤ q := by
    rw [hqsplit]
    have h7 : (0 : ℚ) ≤ (k : ℚ) / 2 ^ 54 := by positivity
    linarith
  set T : ℕ := (52 - e).toNat with hTdef
  have hT : (T : ℤ) = 52 - e := by rw [hTdef]; omega
  set a : ℤ := k * 2 ^ T with hadef
  have hcast : ((a : ℚ)) = (k : ℚ) * (2 : ℚ) ^ ((52 : ℤ) - e) := by
    rw [hadef]
    push_cast
    rw [← zpow_natCast (2 : ℚ) T, hT]
  have hstep : (k : ℚ) / 2 ^ 54 * (2 : ℚ) ^ ((52 : ℤ) - e) =
      (k : ℚ) / 2 ^ (e + 2).toNat := by
    have hA : (2 : ℚ) ^ ((52 : ℤ) - e) / (2 : ℚ) ^ (54 : ℤ) =
        (2 : ℚ) ^ (-(e + 2)) := by
      rw [← zpow_sub₀ (by norm_num : (2 : ℚ) ≠ 0)]
      congr 1
      omega
    have hB : (2 : ℚ) ^ (-(e + 2)) = ((2 : ℚ) ^ (e + 2).toNat)⁻¹ := by
      rw [zpow_neg]
      congr 1
      rw [← zpow_natCast (2 : ℚ) (e + 2).toNat]
      congr 1
      omega
    have hC : ((2 : ℚ) ^ (54 : ℤ)) = (2 : ℚ) ^ (54 : ℕ) := by norm_num
    calc (k : ℚ) / 2 ^ 54 * (2 : ℚ) ^ ((52 : ℤ) - e)
        = (k : ℚ) * ((2 : ℚ) ^ ((52 : ℤ) - e) / (2 : ℚ) ^ (54 : ℤ)) := by
          rw [hC]; ring
      _ = (k : ℚ) * ((2 : ℚ) ^ (e + 2).toNat)⁻¹ := by rw [hA, hB]
      _ = (k : ℚ) / 2 ^ (e + 2).toNat := by ring
  have hysplit : q * (2 : ℚ) ^ ((52 : ℤ) - e) = (a : ℚ) + (k : ℚ) / 2 ^ (e + 2).toNat := by
    rw [hqsplit, add_mul, hcast, hstep]
  have h2a : ((2 : ℚ) ^ (e + 2).toNat) = (2 : ℚ) ^ e * 4 := by
    rw [← zpow_natCast (2 : ℚ) (e + 2).toNat,
      show (((e + 2).toNat : ℤ)) = e + 2 by omega,
      zpow_add₀ (by norm_num : (2 : ℚ) ≠ 0)]
    norm_num
  have h2b : ((2 : ℚ) ^ (e + 2).toNat) = (2 : ℚ) ^ (e + 1) * 2 := by
    rw [← zpow_natCast (2 : ℚ) (e + 2).toNat,
      show (((e + 2).toNat : ℤ)) = e + 2 by omega,
      show e + 2 = (e + 1) + 1 by ring,
      zpow_add₀ (by norm_num : (2 : ℚ) ≠ 0)]
    norm_num
  have hfrac_lo : (1 : ℚ) / 4 ≤ (k : ℚ) / 2 ^ (e + 2).toNat := by
    rw [h2a, le_div_iff₀ (by positivity)]
    nlinarith
  have hfrac_hi : (k : ℚ) / 2 ^ (e + 2).toNat < 1 / 2 := by
    rw [h2b, div_lt_iff₀ (by positivity)]
    nlinarith
  have hfloor : ⌊q * (2 : ℚ) ^ ((52 : ℤ) - e)⌋ = a := by
    rw [Int.floor_eq_iff, hysplit]
    constructor
    · linarith
    · linarith
  have hround : roundNE (q * (2 : ℚ) ^ ((52 : ℤ) - e)) = a := by
    apply roundNE_of_frac_lt _ _ hfloor
    rw [hysplit]
    linarith
  have hfin := fl64_pos_spec q e a hq0 hlo hup hround
  rw [hfin, hcast, mul_assoc, ← zpow_add₀ (by norm_num : (2 : ℚ) ≠ 0)]
  norm_num

end PromptTemplate

namespace PromptTemplate

/-- Multiplying an integer `k ≤ 2^50` by `(3·2^53 - 1)/2^55` — the value of
`5 * fl64(0.15)` — rounds to exactly `3k/4`: the deficit `k·2^-55` is
between one sixth and one third of an ulp, and rounding restores it. -/
theorem fl64_three_quarters_eps (k : ℤ) (hk1 : 1 ≤ k) (hk2 : k ≤ 2 ^ 50) :
    fl64 ((k : ℚ) * ((3 * 2 ^ 53 - 1) / 2 ^ 55)) = 3 * (k : ℚ) / 4 := by
  have hk0 : (0 : ℚ) < (k : ℚ) := by exact_mod_cast hk1
  set m : ℤ := 3 * k with hmdef
  have hm0 : (0 : ℚ) < (m : ℚ) := by
    rw [hmdef]; push_cast; linarith
  set g : ℤ := Int.log 2 (m : ℚ) with hgdef
  have hg1 : (2 : ℚ) ^ g ≤ (m : ℚ) := Int.zpow_log_le_self (by norm_num) hm0
  have hg2 : (m : ℚ) < (2 : ℚ) ^ (g + 1) := Int.lt_zpow_succ_log_self (by norm_num) _
  have hg0 : 1 ≤ g := by
    rw [hgdef]
    have hk1Q : (1 : ℚ) ≤ (k : ℚ) := by exact_mod_cast hk1
    have h1 : ((2 : ℚ)) ^ (1 : ℤ) ≤ (m : ℚ) := by
      rw [zpow_one]
      rw [hmdef]; push_cast; linarith
    exact (Int.zpow_le_iff_le_log (by norm_num) hm0).mp h1
  have hg51 : g ≤ 51 := by
    by_contra hcon
    push_neg at hcon
    have hb : (2 : ℚ) ^ (52 : ℤ) ≤ (2 : ℚ) ^ g :=
      zpow_le_zpow_right₀ (by norm_num : (1 : ℚ) ≤ 2) (by omega)
    have hc : (2 : ℚ) ^ (52 : ℤ) ≤ (m : ℚ) := le_trans hb hg1
    have h0 : (m : ℚ) ≤ ((3 * 2 ^ 50 : ℤ) : ℚ) := by
      rw [hmdef]
      have : 3 * k ≤ 3 * 2 ^ 50 := by omega
      exact_mod_cast this
    have h2 : ((3 * 2 ^ 50 : ℤ) : ℚ) < (2 : ℚ) ^ (52 : ℤ) := by norm_num
    linarith
  -- m is a multiple of 3, hence never a power of two: the lower bound is strict
  have hmne : m ≠ 2 ^ g.toNat := by
    intro hcon
    have h3 : (3 : ℤ) ∣ m := ⟨k, hmdef⟩
    rw [hcon] at h3
    have h4 : ¬ (3 : ℤ) ∣ 2 ^ g.toNat := by
      intro hdvd
      have := Int.Prime.dvd_pow' (p := 3) (by norm_num) hdvd
      norm_num at this
    exact h4 h3
  have hzg : (2 : ℚ) ^ g = (((2 ^ g.toNat : ℤ)) : ℚ) := by
    push_cast
    rw [← zpow_natCast (2 : ℚ) g.toNat]
    congr 1
    omega
  have hmlow : ((2 ^ g.toNat : ℤ)) + 1 ≤ m := by
    have h5 : ((2 ^ g.toNat : ℤ)) ≤ m := by
      have := hg1
      rw [hzg] at this
      exact_mod_cast this
    omega
  have hmlowQ : (((2 ^ g.toNat : ℤ)) : ℚ) + 1 ≤ (m : ℚ) := by exact_mod_cast hmlow
  set e : ℤ := g - 2 with hedef
  set q : ℚ := (k : ℚ) * ((3 * 2 ^ 53 - 1) / 2 ^ 55) with hqdef
  have hqsplit : q = (m : ℚ) / 4 - (k : ℚ) / 2 ^ 55 := by
    rw [hqdef, hmdef]; push_cast; ring
  have hkeps : (k : ℚ) / 2 ^ 55 ≤ 1 / 32 := by
    rw [div_le_iff₀ (by positivity)]
    have h0 : (k : ℚ) ≤ ((2 ^ 50 : ℤ) : ℚ) := by exact_mod_cast hk2
    push_cast at h0
    nlinarith
  have hkepspos : (0 : ℚ) < (k : ℚ) / 2 ^ 55 := by positivity
  have hq_lo : (2 : ℚ) ^ e ≤ q := by
    have h6 : (2 : ℚ) ^ e = (2 : ℚ) ^ g / 4 := by
      rw [hedef, zpow_sub₀ (by norm_num : (2 : ℚ) ≠ 0)]
      norm_num
    rw [h6, hqsplit, hzg]
    have h7 : (((2 ^ g.toNat : ℤ)) : ℚ) / 4 + 1 / 4 ≤ (m : ℚ) / 4 := by linarith
    linarith
  have hq_hi : q < (2 : ℚ) ^ (e + 1) := by
    have h6 : (2 : ℚ) ^ (e + 1) = (2 : ℚ) ^ (g + 1) / 4 := by
      rw [hedef, show g - 2 + 1 = (g + 1) - 2 by ring,
        zpow_sub₀ (by norm_num : (2 : ℚ) ≠ 0)]
      norm_num
    rw [h6, hqsplit]
    have h7 : (m : ℚ) / 4 < (2 : ℚ) ^ (g + 1) / 4 := by linarith
    linarith
  have hq0 : 0 < q := lt_of_lt_of_le (by positivity) hq_lo
  set S : ℕ := (52 - g).toNat with hSdef
  have hS : (S : ℤ) = 52 - g := by rw [hSdef]; omega
  set a : ℤ := m * 2 ^ S with hadef
  have hcast : ((a : ℚ)) = (m : ℚ) * (2 : ℚ) ^ ((52 : ℤ) - g) := by
    rw [hadef]
    push_cast
    rw [← zpow_natCast (2 : ℚ) S, hS]
  have hstepA : (m : ℚ) / 4 * (2 : ℚ) ^ ((52 : ℤ) - e) = (a : ℚ) := by
    rw [hcast, hedef]
    have h8 : (2 : ℚ) ^ ((52 : ℤ) - (g - 2)) = (2 : ℚ) ^ ((52 : ℤ) - g) * 4 := by
      rw [show (52 : ℤ) - (g - 2) = ((52 : ℤ) - g) + 2 by ring,
        zpow_add₀ (by norm_num : (2 : ℚ) ≠ 0)]
      norm_num
    rw [h8]
    ring
  have hstepB : (k : ℚ) / 2 ^ 55 * (2 : ℚ) ^ ((52 : ℤ) - e) =
      (k : ℚ) / 2 ^ (g + 1).toNat := by
    have hA : (2 : ℚ) ^ ((52 : ℤ) - e) / (2 : ℚ) ^ (55 : ℤ) =
        (2 : ℚ) ^ (-(g + 1)) := by
      rw [← zpow_sub₀ (by norm_num : (2 : ℚ) ≠ 0), hedef]
      congr 1
      omega
    have hB : (2 : ℚ) ^ (-(g + 1)) = ((2 : ℚ) ^ (g + 1).toNat)⁻¹ := by
      rw [zpow_neg]
      congr 1
      rw [← zpow_natCast (2 : ℚ) (g + 1).toNat]
      congr 1
      omega
    have hC : ((2 : ℚ) ^ (55 : ℤ)) = (2 : ℚ) ^ (55 : ℕ) := by norm_num
    calc (k : ℚ) / 2 ^ 55 * (2 : ℚ) ^ ((52 : ℤ) - e)
        = (k : ℚ) * ((2 : ℚ) ^ ((52 : ℤ) - e) / (2 : ℚ) ^ (55 : ℤ)) := by
          rw [hC]; ring
      _ = (k : ℚ) * ((2 : ℚ) ^ (g + 1).toNat)⁻¹ := by rw [hA, hB]
      _ = (k : ℚ) / 2 ^ (g + 1).toNat := by ring
  have hysplit : q * (2 : ℚ) ^ ((52 : ℤ) - e) = (a : ℚ) - (k : ℚ) / 2 ^ (g + 1).toNat := by
    rw [hqsplit, sub_mul, hstepA, hstepB]
  have h2g : ((2 : ℚ) ^ (g + 1).toNat) = (2 : ℚ) ^ (g + 1) := by
    rw [← zpow_natCast (2 : ℚ) (g + 1).toNat]
    congr 1
    omega
  have hdel_hi : (k : ℚ) / 2 ^ (g + 1).toNat < 1 / 3 := by
    rw [h2g, div_lt_div_iff₀ (by positivity) (by norm_num)]
    have h9 : 3 * (k : ℚ) < (2 : ℚ) ^ (g + 1) := by
      rw [hmdef] at hg2
      push_cast at hg2
      linarith
    linarith
  have hdel_lo : (1 : ℚ) / 6 < (k : ℚ) / 2 ^ (g + 1).toNat := by
    rw [h2g, div_lt_div_iff₀ (by norm_num) (by positivity)]
    have h10 : (2 : ℚ) ^ (g + 1) = (2 : ℚ) ^ g * 2 := by
      rw [zpow_add₀ (by norm_num : (2 : ℚ) ≠ 0)]
      norm_num
    have h11 : (2 : ℚ) ^ g < 3 * (k : ℚ) := by
      rw [hzg]
      rw [hmdef] at hmlowQ
      push_cast at hmlowQ ⊢
      linarith
    rw [h10]
    linarith
  have hfloor : ⌊q * (2 : ℚ) ^ ((52 : ℤ) - e)⌋ = a - 1 := by
    rw [Int.floor_eq_iff, hysplit]
    constructor
    · push_cast
      linarith
    · push_cast
      linarith
  have hround : roundNE (q * (2 : ℚ) ^ ((52 : ℤ) - e)) = a := by
    have h12 := roundNE_of_frac_gt _ _ hfloor (by
      rw [hysplit]
      push_cast
      linarith)
    rw [h12]
    ring
  have hfin := fl64_pos_spec q e a hq0 hq_lo hq_hi hround
  rw [hfin, hcast, hedef, mul_assoc, ← zpow_add₀ (by norm_num : (2 : ℚ) ≠ 0)]
  rw [show (52 : ℤ) - g + (g - 2 - 52) = (-2 : ℤ) by ring,
    show ((2 : ℚ) ^ (-2 : ℤ)) = 1 / 4 by norm_num, hmdef]
  push_cast
  ring

end PromptTemplate

namespace PromptTemplate

theorem mul_w25_exact (s : ℤ) (h0 : 0 ≤ s) (h1 : s ≤ 105) :
    fl64 ((s : ℚ) * w25) = (s : ℚ) / 4 := by
  rw [w25_val]
  have h2 := fl64_of_dyadic s (-2) h0 (by omega)
  have h3 : ((2 : ℚ) ^ (-2 : ℤ)) = 1 / 4 := by norm_num
  rw [h3] at h2
  rw [show (s : ℚ) * (1 / 4) = (s : ℚ) / 4 by ring] at h2 ⊢
  exact h2

theorem mul_w20_exact (s : ℤ) (h0 : 0 ≤ s) (h1 : s ≤ 100) (h5 : (5 : ℤ) ∣ s) :
    fl64 ((s : ℚ) * w20) = (s : ℚ) / 5 := by
  obtain ⟨k, hk⟩ := h5
  subst hk
  rcases eq_or_lt_of_le (show (0 : ℤ) ≤ k by omega) with h | h
  · rw [← h]
    norm_num [fl64_zero]
  · have hw : ((5 * k : ℤ) : ℚ) * w20 = (k : ℚ) * ((2 ^ 54 + 1) / 2 ^ 54) := by
      rw [w20_val]
      push_cast
      ring
    rw [hw, fl64_one_plus_eps k (by omega) (by omega)]
    push_cast
    ring

theorem mul_w15_exact (s : ℤ) (h0 : 0 ≤ s) (h1 : s ≤ 100) (h5 : (5 : ℤ) ∣ s) :
    fl64 ((s : ℚ) * w15) = 3 * (s : ℚ) / 20 := by
  obtain ⟨k, hk⟩ := h5
  subst hk
  rcases eq_or_lt_of_le (show (0 : ℤ) ≤ k by omega) with h | h
  · rw [← h]
    norm_num [fl64_zero]
  · have hw : ((5 * k : ℤ) : ℚ) * w15 = (k : ℚ) * ((3 * 2 ^ 53 - 1) / 2 ^ 55) := by
      rw [w15_val]
      push_cast
      ring
    rw [hw, fl64_three_quarters_eps k (by omega) (by omega)]
    push_cast
    ring

/-- A sum of quarters is dyadic and sums exactly. -/
theorem fl64_add_quarters (x y : ℤ) (hx : 0 ≤ x) (hy : 0 ≤ y)
    (hxy : x + y < 2 ^ 53) :
    fl64 ((x : ℚ) / 4 + (y : ℚ) / 4) = ((x + y : ℤ) : ℚ) / 4 := by
  have h2 := fl64_of_dyadic (x + y) (-2) (by omega) (by omega)
  have h3 : ((2 : ℚ) ^ (-2 : ℤ)) = 1 / 4 := by norm_num
  rw [h3] at h2
  have h4 : (x : ℚ) / 4 + (y : ℚ) / 4 = ((x + y : ℤ) : ℚ) * (1 / 4) := by
    push_cast
    ring
  rw [h4, h2]
  push_cast
  ring

/-- The scorer's five-term float chain computes the exact weighted sum
whenever the 0.2- and 0.15-weighted scores are multiples of 5. -/
theorem weighted_chain (a b c d e : ℤ)
    (ha0 : 0 ≤ a) (ha1 : a ≤ 105) (hb0 : 0 ≤ b) (hb1 : b ≤ 100) (hb5 : (5 : ℤ) ∣ b)
    (hc0 : 0 ≤ c) (hc1 : c ≤ 105) (hd0 : 0 ≤ d) (hd1 : d ≤ 100) (hd5 : (5 : ℤ) ∣ d)
    (he0 : 0 ≤ e) (he1 : e ≤ 100) (he5 : (5 : ℤ) ∣ e) :
    fl64 (fl64 (fl64 (fl64 (fl64 ((a : ℚ) * w25) + fl64 ((b : ℚ) * w20)) +
        fl64 ((c : ℚ) * w25)) + fl64 ((d : ℚ) * w15)) + fl64 ((e : ℚ) * w15))
      = ((5 * a + 4 * b + 5 * c + 3 * d + 3 * e : ℤ) : ℚ) / 20 := by
  obtain ⟨β, hβ⟩ := hb5
  obtain ⟨δ, hδ⟩ := hd5
  obtain ⟨ε, hε⟩ := he5
  have hP2 : fl64 ((b : ℚ) * w20) = ((β : ℤ) : ℚ) / 1 * (1 / 1) := by
    rw [mul_w20_exact b hb0 hb1 ⟨β, hβ⟩, hβ]
    push_cast
    ring
  have hP2' : fl64 ((b : ℚ) * w20) = ((4 * β : ℤ) : ℚ) / 4 := by
    rw [hP2]
    push_cast
    ring
  have hP4 : fl64 ((d : ℚ) * w15) = ((3 * δ : ℤ) : ℚ) / 4 := by
    rw [mul_w15_exact d hd0 hd1 ⟨δ, hδ⟩, hδ]
    push_cast
    ring
  have hP5 : fl64 ((e : ℚ) * w15) = ((3 * ε : ℤ) : ℚ) / 4 := by
    rw [mul_w15_exact e he0 he1 ⟨ε, hε⟩, hε]
    push_cast
    ring
  have hβb : 0 ≤ β ∧ β ≤ 20 := by omega
  have hδb : 0 ≤ δ ∧ δ ≤ 20 := by omega
  have hεb : 0 ≤ ε ∧ ε ≤ 20 := by omega
  rw [mul_w25_exact a ha0 ha1, hP2', hP4, hP5, mul_w25_exact c hc0 hc1]
  rw [show (a : ℚ) / 4 = ((a : ℤ) : ℚ) / 4 by norm_num]
  rw [fl64_add_quarters a (4 * β) ha0 (by omega) (by omega)]
  rw [show (c : ℚ) / 4 = ((c : ℤ) : ℚ) / 4 by norm_num]
  rw [fl64_add_quarters (a + 4 * β) c (by omega) hc0 (by omega)]
  rw [fl64_add_quarters (a + 4 * β + c) (3 * δ) (by omega) (by omega) (by omega)]
  rw [fl64_add_quarters (a + 4 * β + c + 3 * δ) (3 * ε) (by omega) (by omega) (by omega)]
  have : 5 * a + 4 * b + 5 * c + 3 * d + 3 * e = 5 * (a + 4 * β + c + 3 * δ + 3 * ε) := by
    omega
  rw [this]
  push_cast
  ring

end PromptTemplate

namespace PromptTemplate

theorem foldl_if_sub_le {α : Type} (cond : α → Bool) (pen : ℤ) (hpen : 0 ≤ pen) :
    ∀ (l : List α) (s : ℤ),
      l.foldl (fun s x => if cond x then s - pen else s) s ≤ s := by
  intro l
  induction l with
  | nil => intro s; simp
  | cons x xs ih =>
    intro s
    simp only [List.foldl_cons]
    by_cases h : cond x
    · rw [if_pos h]
      calc xs.foldl _ (s - pen) ≤ s - pen := ih (s - pen)
        _ ≤ s := by omega
    · rw [if_neg h]
      exact ih s

theorem foldl_if_sub_dvd {α : Type} (cond : α → Bool) (pen k : ℤ) (hpen : k ∣ pen) :
    ∀ (l : List α) (s : ℤ), k ∣ s →
      k ∣ l.foldl (fun s x => if cond x then s - pen else s) s := by
  intro l
  induction l with
  | nil => intro s hs; simpa using hs
  | cons x xs ih =>
    intro s hs
    simp only [List.foldl_cons]
    by_cases h : cond x
    · rw [if_pos h]
      exact ih (s - pen) (dvd_sub hs hpen)
    · rw [if_neg h]
      exact ih s hs

theorem score_clarity_bounds (cfg : TemplateConfig) :
    0 ≤ (score_clarity cfg).score ∧ (score_clarity cfg).score ≤ 100 := by
  unfold score_clarity
  dsimp only
  split_ifs <;> omega

end PromptTemplate

namespace PromptTemplate

theorem score_consistency_bounds (cfg : TemplateConfig) :
    0 ≤ (score_consistency cfg).score ∧ (score_consistency cfg).score ≤ 100 ∧
      (5 : ℤ) ∣ (score_consistency cfg).score := by
  unfold score_consistency
  dsimp only
  have h85 := foldl_if_sub_le inconsistentEnum 10 (by norm_num) cfg.variables'
    ((100 : ℤ) - 15)
  have h100 := foldl_if_sub_le inconsistentEnum 10 (by norm_num) cfg.variables' 100
  have d85 := foldl_if_sub_dvd inconsistentEnum 10 5 (by norm_num) cfg.variables'
    ((100 : ℤ) - 15) (by norm_num)
  have d100 := foldl_if_sub_dvd inconsistentEnum 10 5 (by norm_num) cfg.variables' 100
    (by norm_num)
  rcases cfg.system_prompt with _ | sys <;> rcases cfg.user_prompt with _ | usr <;>
    (dsimp only; split_ifs <;> omega)

end PromptTemplate

namespace PromptTemplate

end PromptTemplate

namespace PromptTemplate

theorem score_completeness_bounds (cfg : TemplateConfig) :
    0 ≤ (score_completeness cfg).score ∧ (score_completeness cfg).score ≤ 100 := by
  unfold score_completeness
  dsimp only
  have h1 := foldl_if_sub_le constrainedNoEnum 5 (by norm_num) cfg.variables'
    ((100 : ℤ) - 10)
  have h2 := foldl_if_sub_le constrainedNoEnum 5 (by norm_num) cfg.variables'
    ((100 : ℤ) - 5)
  have h3 := foldl_if_sub_le constrainedNoEnum 5 (by norm_num) cfg.variables' 100
  have h4 := foldl_if_sub_le constrainedNoEnum 5 (by norm_num) cfg.variables'
    (((100 : ℤ) - 10) - 5)
  have h5 := foldl_if_sub_le constrainedNoEnum 5 (by norm_num) cfg.variables'
    (((100 : ℤ) - 5) - 5)
  have h6 := foldl_if_sub_le constrainedNoEnum 5 (by norm_num) cfg.variables'
    ((100 : ℤ) - 5)
  split_ifs <;> omega

theorem score_efficiency_bounds (cfg : TemplateConfig) :
    0 ≤ (score_efficiency cfg).score ∧ (score_efficiency cfg).score ≤ 100 ∧
      (5 : ℤ) ∣ (score_efficiency cfg).score := by
  unfold score_efficiency
  dsimp only
  have h1 := foldl_if_sub_le (isOverused cfg.allContent) 5 (by norm_num)
    cfg.variables' ((100 : ℤ) - 30)
  have h2 := foldl_if_sub_le (isOverused cfg.allContent) 5 (by norm_num)
    cfg.variables' ((100 : ℤ) - 15)
  have h3 := foldl_if_sub_le (isOverused cfg.allContent) 5 (by norm_num)
    cfg.variables' 100
  have h4 := foldl_if_sub_le (isOverused cfg.allContent) 5 (by norm_num)
    cfg.variables' (((100 : ℤ) - 30) - 10)
  have h5 := foldl_if_sub_le (isOverused cfg.allContent) 5 (by norm_num)
    cfg.variables' (((100 : ℤ) - 15) - 10)
  have h6 := foldl_if_sub_le (isOverused cfg.allContent) 5 (by norm_num)
    cfg.variables' ((100 : ℤ) - 10)
  have d1 := foldl_if_sub_dvd (isOverused cfg.allContent) 5 5 (by norm_num)
    cfg.variables' ((100 : ℤ) - 30) (by norm_num)
  have d2 := foldl_if_sub_dvd (isOverused cfg.allContent) 5 5 (by norm_num)
    cfg.variables' ((100 : ℤ) - 15) (by norm_num)
  have d3 := foldl_if_sub_dvd (isOverused cfg.allContent) 5 5 (by norm_num)
    cfg.variables' 100 (by norm_num)
  have d4 := foldl_if_sub_dvd (isOverused cfg.allContent) 5 5 (by norm_num)
    cfg.variables' (((100 : ℤ) - 30) - 10) (by norm_num)
  have d5 := foldl_if_sub_dvd (isOverused cfg.allContent) 5 5 (by norm_num)
    cfg.variables' (((100 : ℤ) - 15) - 10) (by norm_num)
  have d6 := foldl_if_sub_dvd (isOverused cfg.allContent) 5 5 (by norm_num)
    cfg.variables' ((100 : ℤ) - 10) (by norm_num)
  split_ifs <;> omega

theorem score_structure_bounds (cfg : TemplateConfig) :
    0 ≤ (score_structure cfg).score ∧ (score_structure cfg).score ≤ 100 ∧
      (5 : ℤ) ∣ (score_structure cfg).score := by
  unfold score_structure
  dsimp only
  split_ifs <;> omega

end PromptTemplate

namespace PromptTemplate

/-- C6: the five dimension weights sum to 1.0; `overallScore` is the floor
of the weighted sum of the five dimension scores (the float evaluation is
exact for every reachable score tuple) and lies in `[0, 100]`;
the grade is the deterministic descending-threshold function of
`overallScore` (≥90 A, ≥80 B, ≥70 C, ≥60 D, else F, first match wins);
and `isProductionReady` holds iff `overallScore ≥ 70`. -/
theorem claim_C6_quality_aggregation (cfg : TemplateConfig) :
    dimensionWeight QualityDimension.clarity +
      dimensionWeight QualityDimension.consistency +
      dimensionWeight QualityDimension.completeness +
      dimensionWeight QualityDimension.efficiency +
      dimensionWeight QualityDimension.structureDim = 1 ∧
    (score cfg).overall_score =
      ⌊((score_clarity cfg).score : ℚ) * (1/4) +
        ((score_consistency cfg).score : ℚ) * (1/5) +
        ((score_completeness cfg).score : ℚ) * (1/4) +
        ((score_efficiency cfg).score : ℚ) * (3/20) +
        ((score_structure cfg).score : ℚ) * (3/20)⌋ ∧
    0 ≤ (score cfg).overall_score ∧ (score cfg).overall_score ≤ 100 ∧
    (score cfg).grade =
      (if 90 ≤ (score cfg).overall_score then chars "A"
       else if 80 ≤ (score cfg).overall_score then chars "B"
       else if 70 ≤ (score cfg).overall_score then chars "C"
       else if 60 ≤ (score cfg).overall_score then chars "D"
       else chars "F") ∧
    ((score cfg).is_production_ready = true ↔ 70 ≤ (score cfg).overall_score) := by
  obtain ⟨ha0, ha1⟩ := score_clarity_bounds cfg
  obtain ⟨hb0, hb1, hb5⟩ := score_consistency_bounds cfg
  obtain ⟨hc0, hc1⟩ := score_completeness_bounds cfg
  obtain ⟨hd0, hd1, hd5⟩ := score_efficiency_bounds cfg
  obtain ⟨he0, he1, he5⟩ := score_structure_bounds cfg
  set a : ℤ := (score_clarity cfg).score with hadef
  set b : ℤ := (score_consistency cfg).score with hbdef
  set c : ℤ := (score_completeness cfg).score with hcdef
  set d : ℤ := (score_efficiency cfg).score with hddef
  set e : ℤ := (score_structure cfg).score with hedef
  have hchain := weighted_chain a b c d e ha0 (by omega) hb0 hb1 hb5
    hc0 (by omega) hd0 hd1 hd5 he0 he1 he5
  have hval : (score cfg).overall_score =
      pyInt (((5 * a + 4 * b + 5 * c + 3 * d + 3 * e : ℤ) : ℚ) / 20) := by
    show pyInt (fl64 (fl64 (fl64 (fl64 (fl64 ((a : ℚ) * w25) + fl64 ((b : ℚ) * w20)) +
        fl64 ((c : ℚ) * w25)) + fl64 ((d : ℚ) * w15)) + fl64 ((e : ℚ) * w15))) = _
    rw [hchain]
  have hN0 : (0 : ℤ) ≤ 5 * a + 4 * b + 5 * c + 3 * d + 3 * e := by omega
  have hNQ : (0 : ℚ) ≤ ((5 * a + 4 * b + 5 * c + 3 * d + 3 * e : ℤ) : ℚ) / 20 := by
    have : (0 : ℚ) ≤ ((5 * a + 4 * b + 5 * c + 3 * d + 3 * e : ℤ) : ℚ) := by
      exact_mod_cast hN0
    positivity
  have hfloor : (score cfg).overall_score =
      ⌊((5 * a + 4 * b + 5 * c + 3 * d + 3 * e : ℤ) : ℚ) / 20⌋ := by
    rw [hval, pyInt, if_pos hNQ]
  have hsum_eq : ((5 * a + 4 * b + 5 * c + 3 * d + 3 * e : ℤ) : ℚ) / 20 =
      (a : ℚ) * (1/4) + (b : ℚ) * (1/5) + (c : ℚ) * (1/4) +
        (d : ℚ) * (3/20) + (e : ℚ) * (3/20) := by
    push_cast
    ring
  refine ⟨?_, ?_, ?_, ?_, ?_, ?_⟩
  · show w25 + w20 + w25 + w15 + w15 = 1
    exact weights_sum_one
  · rw [hfloor, hsum_eq]
  · rw [hfloor]
    exact Int.floor_nonneg.mpr hNQ
  · rw [hfloor]
    have hle : ((5 * a + 4 * b + 5 * c + 3 * d + 3 * e : ℤ) : ℚ) / 20 ≤ ((100 : ℤ) : ℚ) := by
      have h1 : (5 * a + 4 * b + 5 * c + 3 * d + 3 * e : ℤ) ≤ 2000 := by omega
      have h2 : ((5 * a + 4 * b + 5 * c + 3 * d + 3 * e : ℤ) : ℚ) ≤ 2000 := by
        exact_mod_cast h1
      rw [div_le_iff₀ (by norm_num)]
      push_cast
      linarith
    have := Int.floor_le_floor hle
    simpa using this
  · show gradeFold ((score cfg).overall_score) GRADE_THRESHOLDS (chars "F") = _
    simp only [GRADE_THRESHOLDS, gradeFold, ge_iff_le]
    split_ifs <;> rfl
  · show (decide ((score cfg).overall_score ≥ 70) = true) ↔ _
    simp [ge_iff_le]

end PromptTemplate

namespace PromptTemplate

/-! ## Support lemmas for the claim theorems -/

theorem memStr_iff (x : List Char) (xs : List (List Char)) :
    memStr x xs = true ↔ x ∈ xs := by
  simp [memStr, List.contains, List.elem_iff]

theorem alookup_aset {α : Type} (k m : List Char) (v : α) :
    ∀ d : List (List Char × α),
      alookup m (aset k v d) = if k = m then some v else alookup m d := by
  intro d
  induction d with
  | nil => simp [aset, alookup]
  | cons kv rest ih =>
    obtain ⟨k', v'⟩ := kv
    by_cases h : k' = k
    · subst h
      by_cases hm : k' = m <;> simp [aset, alookup, hm]
    · by_cases hm : k' = m
      · subst hm
        have hk : ¬ k = k' := fun hc => h hc.symm
        simp [aset, h, alookup, hk]
      · simp [aset, h, alookup, hm, ih]

theorem foldl_aset_lookup {α : Type} (f : List Char → α) (m : List Char) :
    ∀ (l : List (List Char)) (d : List (List Char × α)),
      alookup m (l.foldl (fun d k => aset k (f k) d) d) =
        if memStr m l then some (f m) else alookup m d := by
  intro l
  induction l with
  | nil => intro d; simp [memStr]
  | cons k ks ih =>
    intro d
    simp only [List.foldl_cons]
    rw [ih, alookup_aset]
    by_cases hks : m ∈ ks
    · rw [if_pos ((memStr_iff m ks).mpr hks),
        if_pos ((memStr_iff m (k :: ks)).mpr (List.mem_cons_of_mem k hks))]
    · rw [if_neg (fun hc => hks ((memStr_iff m ks).mp hc))]
      by_cases hk : k = m
      · subst hk
        rw [if_pos rfl, if_pos ((memStr_iff k (k :: ks)).mpr (List.mem_cons_self k ks))]
      · rw [if_neg hk, if_neg ?_]
        intro hc
        rcases List.mem_cons.mp ((memStr_iff m (k :: ks)).mp hc) with hc1 | hc2
        · exact hk hc1.symm
        · exact hks hc2

theorem foldl_add_warning_warnings (f : List Char → List Char) :
    ∀ (l : List (List Char)) (acc : ValidationResult),
      (l.foldl (fun r n => r.add_warning (f n)) acc).warnings =
        acc.warnings ++ l.map f := by
  intro l
  induction l with
  | nil => intro acc; simp
  | cons x xs ih =>
    intro acc
    simp only [List.foldl_cons, List.map_cons]
    rw [ih]
    simp [ValidationResult.add_warning]

theorem prefixAt_append_self : ∀ (p rest : List Char), prefixAt p (p ++ rest) = true := by
  intro p
  induction p with
  | nil => intro rest; rfl
  | cons c cs ih =>
    intro rest
    simp [prefixAt, ih]

theorem containsSub_append_right (pat : List Char) :
    ∀ (a b : List Char), containsSub pat b = true → containsSub pat (a ++ b) = true := by
  intro a
  induction a with
  | nil => intro b h; simpa using h
  | cons c cs ih =>
    intro b h
    simp only [List.cons_append, containsSub, Bool.or_eq_true]
    exact Or.inr (ih b h)

theorem containsSub_self_head (pat rest : List Char) :
    containsSub pat (pat ++ rest) = true := by
  cases hp : pat ++ rest with
  | nil =>
    have : pat = [] := by
      cases pat
      · rfl
      · simp at hp
    subst this
    simp [containsSub, prefixAt]
  | cons c cs =>
    rw [containsSub, ← hp, Bool.or_eq_true]
    exact Or.inl (prefixAt_append_self pat rest)

/-- C7: with identical combined content, a configuration with both a
system prompt and a user prompt scores at least as high on the structure
dimension as a single-template configuration. -/
theorem claim_C7_structure_split (cfg1 cfg2 : TemplateConfig) (s u : List Char)
    (h1s : cfg1.system_prompt = some s) (h1u : cfg1.user_prompt = some u)
    (hs : s ≠ []) (hu : u ≠ [])
    (h2s : cfg2.system_prompt = Option.none) (h2u : cfg2.user_prompt = Option.none)
    (h2t : cfg2.template = s ++ u ++ cfg1.template) :
    (score_structure cfg2).score ≤ (score_structure cfg1).score := by
  have hsE : s.isEmpty = false := by
    cases s
    · exact absurd rfl hs
    · rfl
  have huE : u.isEmpty = false := by
    cases u
    · exact absurd rfl hu
    · rfl
  have hcontent : cfg2.allContent = cfg1.allContent := by
    unfold TemplateConfig.allContent
    rw [h1s, h1u, h2s, h2u, h2t]
    simp [optStr]
  unfold score_structure
  dsimp only
  rw [hcontent, h1s, h1u, h2s, h2u]
  simp only [optTruthy, hsE, huE, Bool.not_false, Bool.and_self, Bool.or_self]
  split_ifs <;> omega

/-- C10: the validator's syntax check and unused/undeclared detection read
only the `template` field; with an empty template every declared variable
is reported unused and nothing is reported undeclared. -/
theorem claim_C10_validate_template_only (cfg : TemplateConfig) :
    (∀ sys usr : Option (List Char),
      TemplateValidator.validate
        { cfg with system_prompt := sys, user_prompt := usr } =
        TemplateValidator.validate cfg) ∧
    (cfg.template = [] →
      (TemplateValidator.check_unused_variables cfg).warnings =
        (dedup (cfg.variables'.map (fun v => v.name))).map
          TemplateValidator.unusedWarning ∧
      (TemplateValidator.check_undeclared_variables cfg).warnings = []) := by
  constructor
  · intro sys usr
    rfl
  · intro ht
    have hempty : TemplateRenderer.extract_variables cfg.template = [] := by
      rw [ht]
      rfl
    constructor
    · unfold TemplateValidator.check_unused_variables
      rw [hempty]
      dsimp only
      rw [foldl_add_warning_warnings TemplateValidator.unusedWarning]
      simp [memStr]
    · unfold TemplateValidator.check_undeclared_variables
      rw [hempty]
      rfl

end PromptTemplate

namespace PromptTemplate

theorem model_limit_mem (m : List Char) :
    get_model_limit m ∈ MODEL_LIMITS.map Prod.snd ∨ get_model_limit m = 8192 := by
  unfold get_model_limit
  dsimp only
  cases hf : MODEL_LIMITS.find? (fun kv => kv.1 = lowerStr m) with
  | some kv =>
    left
    exact List.mem_map_of_mem Prod.snd (List.mem_of_find?_eq_some hf)
  | none =>
    cases hg : MODEL_LIMITS.find?
        (fun kv => containsSub kv.1 (lowerStr m) || containsSub (lowerStr m) kv.1) with
    | some kv =>
      left
      exact List.mem_map_of_mem Prod.snd (List.mem_of_find?_eq_some hg)
    | none =>
      right
      rfl

theorem model_limit_le (m : List Char) : get_model_limit m ≤ 200000 := by
  rcases model_limit_mem m with h | h
  · have hmap : MODEL_LIMITS.map Prod.snd =
        [8192, 32768, 128000, 128000, 128000, 16385, 200000, 200000, 200000,
          200000, 100000, 8192] := rfl
    rw [hmap] at h
    simp only [List.mem_cons, List.not_mem_nil, or_false] at h
    rcases h with h | h | h | h | h | h | h | h | h | h | h | h <;> omega
  · omega

theorem model_fit_exact (tokens : ℕ) (limit : ℕ) (hl : limit ≤ 200000) :
    ((tokens : ℚ) < fl64 ((limit : ℚ) * (3/4))) ↔ 4 * tokens < 3 * limit := by
  have hdy : fl64 ((limit : ℚ) * (3/4)) = (3 * (limit : ℚ)) / 4 := by
    have h2 := fl64_of_dyadic (3 * limit) (-2) (by positivity) (by
      have h3 : (limit : ℤ) ≤ 200000 := by exact_mod_cast hl
      omega)
    have h4 : ((3 * (limit : ℕ) : ℤ) : ℚ) * (2 : ℚ) ^ (-2 : ℤ) =
        (limit : ℚ) * (3/4) := by
      push_cast
      rw [show ((2 : ℚ) ^ (-2 : ℤ)) = 1 / 4 by norm_num]
      ring
    rw [h4] at h2
    rw [h2, ← h4]
    push_cast
    rw [show ((2 : ℚ) ^ (-2 : ℤ)) = 1 / 4 by norm_num]
    ring
  rw [hdy, lt_div_iff₀ (by norm_num)]
  constructor
  · intro h
    have h2 : (4 * tokens : ℚ) < 3 * limit := by linarith
    exact_mod_cast h2
  · intro h
    have h2 : ((4 * tokens : ℕ) : ℚ) < ((3 * limit : ℕ) : ℚ) := by exact_mod_cast h
    push_cast at h2
    linarith

theorem check_model_fit_lookup (tokens : ℕ) (models : List (List Char))
    (m : List Char) (hm : m ∈ models) :
    alookup m (check_model_fit tokens models) =
      some (decide ((tokens : ℚ) < fl64 ((get_model_limit m : ℚ) * (3/4)))) := by
  unfold check_model_fit
  have h := foldl_aset_lookup
    (fun model => decide ((tokens : ℚ) < fl64 ((get_model_limit model : ℚ) * (3/4))))
    m models []
  rw [h, if_pos ((memStr_iff m models).mpr hm)]

/-- C3: `estimatedTotal` is the static total minus `2·(declared variables)`
plus the summed per-variable estimates, floored at 0; for every requested
model, `modelFit[model]` holds iff `estimatedTotal < 0.75·contextLimit`
(the float product `limit * 0.75` is exact for every table limit); and
`contextLimit` resolves by exact lower-cased lookup, then first substring
match in either direction, then the default 8192. -/
theorem claim_C3_analyze_totals_fit (cfg : TemplateConfig)
    (samples : List (List Char × PyValue)) (target_models : List (List Char)) :
    ((analyze cfg samples target_models).token_estimate.estimated_total =
      (max 0 (((analyze cfg samples target_models).token_estimate.total_static_tokens : ℤ) -
        (cfg.variables'.length : ℤ) * 2 +
        ((((analyze cfg samples target_models).token_estimate.estimated_variable_tokens.map
          Prod.snd).foldl (· + ·) 0 : ℕ) : ℤ))).toNat) ∧
    (∀ m, m ∈ (if target_models.isEmpty then
        [chars "gpt-4", chars "gpt-4-turbo", chars "claude-3-sonnet"]
      else target_models) →
      (alookup m (analyze cfg samples target_models).token_estimate.model_fit =
          some true ↔
        4 * (analyze cfg samples target_models).token_estimate.estimated_total <
          3 * get_model_limit m)) ∧
    (∀ m kv, MODEL_LIMITS.find? (fun p => p.1 = lowerStr m) = some kv →
      get_model_limit m = kv.2) ∧
    (∀ m kv, MODEL_LIMITS.find? (fun p => p.1 = lowerStr m) = Option.none →
      MODEL_LIMITS.find?
        (fun p => containsSub p.1 (lowerStr m) || containsSub (lowerStr m) p.1) = some kv →
      get_model_limit m = kv.2) ∧
    (∀ m, MODEL_LIMITS.find? (fun p => p.1 = lowerStr m) = Option.none →
      MODEL_LIMITS.find?
        (fun p => containsSub p.1 (lowerStr m) || containsSub (lowerStr m) p.1) =
          Option.none →
      get_model_limit m = 8192) := by
  refine ⟨?_, ?_, ?_, ?_, ?_⟩
  · rfl
  · intro m hm
    have hfit : (analyze cfg samples target_models).token_estimate.model_fit =
        check_model_fit
          (analyze cfg samples target_models).token_estimate.estimated_total
          (if target_models.isEmpty then
            [chars "gpt-4", chars "gpt-4-turbo", chars "claude-3-sonnet"]
          else target_models) := by
      by_cases h : target_models.isEmpty
      · rw [if_pos h]
        show check_model_fit _ (if target_models.isEmpty then _ else _) = _
        rw [if_pos h]
        rfl
      · rw [if_neg h]
        show check_model_fit _ (if target_models.isEmpty then _ else _) = _
        rw [if_neg h]
        rfl
    rw [hfit, check_model_fit_lookup _ _ m hm]
    simp only [Option.some.injEq, decide_eq_true_eq]
    exact model_fit_exact _ _ (model_limit_le m)
  · intro m kv hf
    unfold get_model_limit
    dsimp only
    rw [hf]
  · intro m kv hf hg
    unfold get_model_limit
    dsimp only
    rw [hf, hg]
  · intro m hf hg
    unfold get_model_limit
    dsimp only
    rw [hf, hg]

end PromptTemplate

namespace PromptTemplate

theorem fl64_natDiv4 (m : ℕ) (hm : (m : ℤ) < 2 ^ 53) :
    fl64 ((m : ℚ) / 4) = (m : ℚ) / 4 := by
  have h2 := fl64_of_dyadic m (-2) (by positivity) hm
  have h3 : ((m : ℤ) : ℚ) * (2 : ℚ) ^ (-2 : ℤ) = (m : ℚ) / 4 := by
    push_cast
    rw [show ((2 : ℚ) ^ (-2 : ℤ)) = 1 / 4 by norm_num]
    ring
  rw [h3] at h2
  exact h2

theorem floor_natCast_div4 (n : ℕ) : ⌊((n : ℚ)) / 4⌋ = ((n / 4 : ℕ) : ℤ) := by
  rw [Int.floor_eq_iff]
  refine ⟨?_, ?_⟩
  · rw [le_div_iff₀ (by norm_num : (0 : ℚ) < 4)]
    exact_mod_cast (show ((n / 4) * 4 : ℕ) ≤ n by omega)
  · rw [div_lt_iff₀ (by norm_num : (0 : ℚ) < 4)]
    exact_mod_cast (show n < ((n / 4 + 1) * 4 : ℕ) by omega)

theorem wsRuns_cons_cons (c d : Char) (ds : List Char) :
    wsRuns (c :: d :: ds) =
      if isSpacePy c then
        (if isSpacePy d then wsRuns (d :: ds) else 1 + wsRuns (d :: ds))
      else wsRuns (d :: ds) := rfl

theorem wsRuns_le_length : ∀ s : List Char, wsRuns s ≤ s.length := by
  intro s
  induction s with
  | nil => simp [wsRuns]
  | cons c cs ih =>
    cases cs with
    | nil => by_cases h : isSpacePy c <;> simp [wsRuns, h]
    | cons d ds =>
      rw [wsRuns_cons_cons]
      split_ifs <;> (simp only [List.length_cons] at ih ⊢; omega)

theorem count_tokens_eq (text : List Char) (h : text.length ≤ 2 ^ 50) :
    count_tokens text = (text.length + wsRuns text) / 4 := by
  cases text with
  | nil => rfl
  | cons c cs =>
    have hws := wsRuns_le_length (c :: cs)
    unfold count_tokens estimate_tokens
    rw [if_neg (by simp), if_neg (by simp)]
    have hlen : ((c :: cs).length : ℤ) < 2 ^ 53 := by
      have := h
      push_cast
      omega
    have h1 : fl64 (((c :: cs).length : ℚ) / 4) = ((c :: cs).length : ℚ) / 4 :=
      fl64_natDiv4 _ hlen
    have h2 : fl64 ((wsRuns (c :: cs) : ℚ) * (1 / 4)) = (wsRuns (c :: cs) : ℚ) / 4 := by
      have h3 := fl64_of_dyadic (wsRuns (c :: cs)) (-2) (by positivity) (by push_cast; omega)
      have h4 : ((wsRuns (c :: cs) : ℤ) : ℚ) * (2 : ℚ) ^ (-2 : ℤ) =
          (wsRuns (c :: cs) : ℚ) * (1 / 4) := by
        push_cast
        rw [show ((2 : ℚ) ^ (-2 : ℤ)) = 1 / 4 by norm_num]
      rw [h4] at h3
      rw [h3]
      ring
    rw [h1, h2]
    have h5 : ((c :: cs).length : ℚ) / 4 + (wsRuns (c :: cs) : ℚ) / 4 =
        (((c :: cs).length + wsRuns (c :: cs) : ℕ) : ℚ) / 4 := by
      push_cast
      ring
    have h6 : fl64 ((((c :: cs).length + wsRuns (c :: cs) : ℕ) : ℚ) / 4) =
        (((c :: cs).length + wsRuns (c :: cs) : ℕ) : ℚ) / 4 :=
      fl64_natDiv4 _ (by push_cast; omega)
    rw [h5, h6, pyInt, if_pos (by positivity), floor_natCast_div4]
    omega

theorem wsRuns_replicate (c : Char) :
    ∀ n : ℕ, wsRuns (List.replicate n c) =
      if isSpacePy c ∧ 1 ≤ n then 1 else 0 := by
  intro n
  induction n with
  | zero => simp [wsRuns]
  | succ m ih =>
    cases m with
    | zero =>
      by_cases hc : isSpacePy c <;>
        simp [List.replicate_succ, wsRuns, hc]
    | succ m2 =>
      rw [List.replicate_succ, List.replicate_succ, wsRuns_cons_cons,
        ← List.replicate_succ]
      by_cases hc : isSpacePy c
      · rw [if_pos hc, if_pos hc, ih, if_pos ⟨hc, by omega⟩,
          if_pos ⟨hc, by omega⟩]
      · rw [if_neg hc, ih]
        rw [if_neg (fun hx => hc hx.1), if_neg (fun hx => hc hx.1)]

end PromptTemplate

namespace PromptTemplate

/-- C2 (as stated, refuted): for the one-character text `"a"` the fallback
count is `int(0.25) = 0`, not `ceil(1/4) + 0.25·0 = 1`. -/
theorem claim_C2_counterexample :
    count_tokens (chars "a") = 0 ∧
    ((count_tokens (chars "a") : ℚ)) ≠
      ⌈((chars "a").length : ℚ) / 4⌉ + (1/4) * (wsRuns (chars "a") : ℚ) := by
  have h0 : count_tokens (chars "a") = 0 := by
    rw [count_tokens_eq (chars "a") (by decide)]
    rfl
  refine ⟨h0, ?_⟩
  rw [h0]
  have h1 : ((chars "a").length : ℚ) = 1 := by norm_num [chars]
  have h2 : (wsRuns (chars "a") : ℚ) = 0 := by norm_num [show wsRuns (chars "a") = 0 from rfl]
  have h3 : (⌈(1 : ℚ) / 4⌉ : ℤ) = 1 := by
    rw [Int.ceil_eq_iff]
    norm_num
  rw [h1, h2, h3]
  norm_num

/-- C2 (amended): the fallback count is
`int(len/4 + 0.25·wsRuns)` = `(len + wsRuns) div 4` — a floor, not a
ceiling (exact for texts within the float-exact range); the empty text
counts 0; and the count is non-decreasing along repeated-character
sequences. -/
theorem claim_C2_token_fallback (text : List Char) (h : text.length ≤ 2 ^ 50) :
    count_tokens text = (text.length + wsRuns text) / 4 ∧
    count_tokens ([] : List Char) = 0 ∧
    (∀ (c : Char) (n : ℕ), n + 1 ≤ 2 ^ 50 →
      count_tokens (List.replicate n c) ≤ count_tokens (List.replicate (n + 1) c)) := by
  refine ⟨count_tokens_eq text h, rfl, ?_⟩
  intro c n hn
  rw [count_tokens_eq _ (by simpa using by omega : (List.replicate n c).length ≤ 2 ^ 50),
    count_tokens_eq _ (by simpa using hn : (List.replicate (n + 1) c).length ≤ 2 ^ 50)]
  rw [List.length_replicate, List.length_replicate, wsRuns_replicate, wsRuns_replicate]
  by_cases hc : isSpacePy c
  · cases n with
    | zero => simp
    | succ m =>
      rw [if_pos ⟨hc, by omega⟩, if_pos ⟨hc, by omega⟩]
      omega
  · rw [if_neg (fun hx => hc hx.1), if_neg (fun hx => hc hx.1)]
    omega

/-- Witness for C2's amended theorem at `"hello world"`. -/
theorem claim_C2_token_fallback_witness :
    count_tokens (chars "hello world") = 3 := by
  have h := (claim_C2_token_fallback (chars "hello world") (by decide)).1
  rw [h]
  rfl

/-- C4 (as stated, refuted): a body consisting of a stray `%\x7d` has
mismatched block-tag counts but `validate_syntax` reports nothing — the
block-tag check only runs when `\x7b%` occurs. -/
theorem claim_C4_counterexample :
    TemplateRenderer.validate_syntax ['%', rbrace] = [] ∧
    countSub [lbrace, '%'] ['%', rbrace] ≠ countSub ['%', rbrace] ['%', rbrace] := by
  constructor
  · rfl
  · decide

/-- C4 (amended): `validate_syntax` never raises (it is a total function
into a message list); it reports unbalanced `\x7b\x7b`/`\x7d\x7d` whenever their
counts differ, and unbalanced `\x7b%`/`%\x7d` whenever the body contains `\x7b%`
and the counts differ. -/
theorem claim_C4_unbalanced_reports (body : List Char) :
    (countSub [lbrace, lbrace] body ≠ countSub [rbrace, rbrace] body →
      TemplateRenderer.unbalancedBracesMsg (countSub [lbrace, lbrace] body)
          (countSub [rbrace, rbrace] body) ∈
        TemplateRenderer.validate_syntax body) ∧
    (containsSub [lbrace, '%'] body = true →
      countSub [lbrace, '%'] body ≠ countSub ['%', rbrace] body →
      TemplateRenderer.unbalancedBlockMsg (countSub [lbrace, '%'] body)
          (countSub ['%', rbrace] body) ∈
        TemplateRenderer.validate_syntax body) := by
  constructor
  · intro hne
    unfold TemplateRenderer.validate_syntax
    dsimp only
    rw [if_pos hne]
    refine List.mem_append.mpr (Or.inl (List.mem_append.mpr (Or.inr ?_)))
    exact List.mem_singleton.mpr rfl
  · intro hin hne
    unfold TemplateRenderer.validate_syntax
    dsimp only
    rw [if_pos hin, if_pos hne]
    refine List.mem_append.mpr (Or.inr ?_)
    exact List.mem_singleton.mpr rfl

/-- Witness for C4's amended theorem at the body `"\x7b\x7bx\x7b% if"`. -/
theorem claim_C4_unbalanced_reports_witness :
    TemplateRenderer.unbalancedBracesMsg 1 0 ∈
      TemplateRenderer.validate_syntax (chars "\x7b\x7bx\x7b% if") ∧
    TemplateRenderer.unbalancedBlockMsg 1 0 ∈
      TemplateRenderer.validate_syntax (chars "\x7b\x7bx\x7b% if") := by
  have h1 := (claim_C4_unbalanced_reports (chars "\x7b\x7bx\x7b% if")).1 (by decide)
  have h2 := (claim_C4_unbalanced_reports (chars "\x7b\x7bx\x7b% if")).2 (by decide) (by decide)
  constructor
  · have e1 : countSub [lbrace, lbrace] (chars "\x7b\x7bx\x7b% if") = 1 := by decide
    have e2 : countSub [rbrace, rbrace] (chars "\x7b\x7bx\x7b% if") = 0 := by decide
    rw [e1, e2] at h1
    exact h1
  · have e3 : countSub [lbrace, '%'] (chars "\x7b\x7bx\x7b% if") = 1 := by decide
    have e4 : countSub ['%', rbrace] (chars "\x7b\x7bx\x7b% if") = 0 := by decide
    rw [e3, e4] at h2
    exact h2

end PromptTemplate

namespace PromptTemplate

/-! ## C1: `Template.render` -/

/-- The configuration of the C1 example scenario:
`name "t"`, template `Hello, \x7b\x7bname\x7d\x7d!`, one required string
variable `name` with no default. -/
def exampleC1 : TemplateConfig :=
  { name := chars "t"
    template := chars "Hello, \x7b\x7bname\x7d\x7d!"
    variables' := [{ name := chars "name" }] }

/-- C1.  The claim fails as stated: `Template.render` never returns a
rendered string.  Its first act is `self._validator.validate_inputs(...)`,
whose own first statement calls `config.get_required_variables()` — a
method that exists on `Template` but not on `TemplateConfig`
(`models.py` defines only `get_declared_required_variables` and
`get_must_provide_variables`).  Attribute lookup raises `AttributeError`
before any validation or rendering, for every configuration and every
binding map — in particular for the claim's own example with
`name = "World"` provided.  The remaining conjuncts show the claimed
behaviour is exactly what the method yields once the call is repaired to
`get_declared_required_variables` (filtered by a null default, as the
loop body does): `"Hello, World!"` on the bound example, and on the empty
binding map a `TemplateRenderError` whose message mentions `name`. -/
theorem claim_C1_render_attribute_error :
    (∀ (cfg : TemplateConfig) (vars : List (List Char × PyValue)),
      Template.render cfg vars =
        Except.error (PyExc.attributeError
          (chars "'TemplateConfig' object has no attribute 'get_required_variables'"))) ∧
    Template.render_repaired exampleC1 [(chars "name", PyValue.str (chars "World"))] =
      Except.ok (chars "Hello, World!") ∧
    (∃ msg,
      Template.render_repaired exampleC1 [] =
        Except.error (PyExc.templateRenderError msg) ∧
      containsSub (chars "name") msg = true) := by
  refine ⟨fun cfg vars => rfl, rfl, chars "Invalid input values:\n  Missing required variable: 'name'", rfl, by decide⟩

end PromptTemplate

namespace PromptTemplate

/-! ## C5/C9: preview placeholders and defaults -/

/-- A substitution-only body: no `if` blocks.  On such a body the lenient
render reproduces every variable's fill verbatim in the output. -/
def subOnly : JBody → Bool
  | JBody.nil => true
  | JBody.text _ rest => subOnly rest
  | JBody.var _ rest => subOnly rest
  | JBody.ifb _ _ _ _ => false

/-- The first declared non-null default for a name — what the
`_apply_defaults` loop of `template.py` merges in for a name the caller
did not bind. -/
def firstDefault (decls : List VariableConfig) (v : List Char) : Option PyValue :=
  match decls with
  | [] => Option.none
  | w :: rest =>
    if w.name = v && w.default.isSome then w.default else firstDefault rest v

theorem mem_dedup : ∀ (xs : List (List Char)) (x : List Char),
    x ∈ dedup xs ↔ x ∈ xs := by
  intro xs
  induction xs with
  | nil => intro x; simp [dedup]
  | cons y ys ih =>
    intro x
    rw [dedup]
    by_cases h : memStr y (dedup ys) = true
    · have hy : y ∈ ys := (ih y).mp ((memStr_iff y (dedup ys)).mp h)
      rw [if_pos h]
      simp only [ih x, List.mem_cons]
      constructor
      · exact Or.inr
      · rintro (rfl | hx)
        · exact hy
        · exact hx
    · rw [if_neg h]
      simp only [List.mem_cons, ih x]

theorem alookup_append_some {α : Type} (k : List Char) (x : α) :
    ∀ (a b : List (List Char × α)), alookup k a = some x →
      alookup k (a ++ b) = some x := by
  intro a
  induction a with
  | nil => intro b h; simp [alookup] at h
  | cons kv rest ih =>
    intro b h
    obtain ⟨k', v⟩ := kv
    by_cases hk : k' = k
    · simpa [alookup, hk] using h
    · simp only [alookup, hk, if_false] at h
      simpa [alookup, hk] using ih b h

theorem alookup_append_none {α : Type} (k : List Char) :
    ∀ (a b : List (List Char × α)), alookup k a = Option.none →
      alookup k (a ++ b) = alookup k b := by
  intro a
  induction a with
  | nil => intro b _; rfl
  | cons kv rest ih =>
    intro b h
    obtain ⟨k', v⟩ := kv
    by_cases hk : k' = k
    · simp [alookup, hk] at h
    · simp only [alookup, hk, if_false] at h
      simpa [alookup, hk] using ih b h

theorem alookup_map_self (f : List Char → PyValue) (v : List Char) :
    ∀ xs : List (List Char), v ∈ xs →
      alookup v (xs.map (fun u => (u, f u))) = some (f v) := by
  intro xs
  induction xs with
  | nil => intro h; cases h
  | cons u us ih =>
    intro h
    by_cases hu : u = v
    · subst hu; simp [alookup]
    · rcases List.mem_cons.mp h with rfl | hmem
      · exact absurd rfl hu
      · simp only [List.map_cons, alookup, hu, if_false]
        exact ih hmem

/-- In a substitution-only body, the render of any free variable's lookup
occurs verbatim as a segment of the output. -/
theorem renderLen_segment (binds : List (List Char × PyValue)) (v : List Char) :
    ∀ ast : JBody, subOnly ast = true → v ∈ freeVars ast →
      ∃ pre post, renderLen binds ast =
        pre ++ ((match alookup v binds with
                 | some w => pyStr w
                 | Option.none => []) ++ post) := by
  intro ast
  induction ast with
  | nil => intro _ h; simp [freeVars] at h
  | text s rest ih =>
    intro hs hv
    rw [subOnly] at hs
    rw [freeVars] at hv
    obtain ⟨pre, post, heq⟩ := ih hs hv
    exact ⟨s ++ pre, post, by simp [renderLen, heq]⟩
  | var n rest ih =>
    intro hs hv
    rw [subOnly] at hs
    rw [freeVars] at hv
    rcases List.mem_cons.mp hv with rfl | hmem
    · exact ⟨[], renderLen binds rest, by simp [renderLen]⟩
    · obtain ⟨pre, post, heq⟩ := ih hs hmem
      refine ⟨(match alookup n binds with
               | some w => pyStr w
               | Option.none => []) ++ pre, post, ?_⟩
      simp only [renderLen, heq, List.append_assoc]
  | ifb c t e rest iht ihe ihr =>
    intro hs
    rw [subOnly] at hs
    cases hs

theorem containsSub_mid (pat pre post : List Char) :
    containsSub pat (pre ++ (pat ++ post)) = true :=
  containsSub_append_right pat pre _ (containsSub_self_head pat post)

/-- A name bound by the caller keeps its binding through the preview fill. -/
theorem previewVars_lookup_hit (body : List Char)
    (vars : List (List Char × PyValue)) (v : List Char) (x : PyValue)
    (h : alookup v vars = some x) :
    alookup v (TemplateRenderer.previewVars body vars) = some x :=
  alookup_append_some v x vars _ h

/-- An extracted name the caller did not bind is filled with the
`[name]` placeholder string. -/
theorem previewVars_lookup_miss (body : List Char)
    (vars : List (List Char × PyValue)) (v : List Char)
    (h : alookup v vars = Option.none)
    (hm : memStr v (TemplateRenderer.extract_variables body) = true) :
    alookup v (TemplateRenderer.previewVars body vars) =
      some (PyValue.str ('[' :: v ++ [']'])) := by
  unfold TemplateRenderer.previewVars
  rw [alookup_append_none v vars _ h]
  apply alookup_map_self (fun u => PyValue.str ('[' :: u ++ [']']))
  rw [List.mem_filter]
  exact ⟨(memStr_iff _ _).mp hm, by rw [h]; rfl⟩

end PromptTemplate

namespace PromptTemplate

/-- C5 counterexample: for the body `\x7b% if flag %\x7dyes\x7b% endif %\x7d`
with no bindings, `flag` is extracted and absent, and `preview` fills it with
the placeholder string `[flag]` — but that placeholder is *truthy*, so the
`if` block renders its then-branch and the output `yes` does not contain
`[flag]` anywhere.  The claim's "appears in the rendered output" is
therefore false in general: the fill happens in the binding map, not
necessarily in the output. -/
theorem claim_C5_counterexample :
    TemplateRenderer.preview (chars "\x7b% if flag %\x7dyes\x7b% endif %\x7d") [] =
      chars "yes" ∧
    memStr (chars "flag")
      (TemplateRenderer.extract_variables
        (chars "\x7b% if flag %\x7dyes\x7b% endif %\x7d")) = true ∧
    containsSub (chars "[flag]")
      (TemplateRenderer.preview (chars "\x7b% if flag %\x7dyes\x7b% endif %\x7d") []) =
      false :=
  ⟨by decide, by decide, by decide⟩

/-- C5 (amended).  `preview` is a total function (never raises): a parse
failure yields the single descriptive `Preview error (syntax): …` string;
every extracted variable absent from the caller's bindings is filled with
the placeholder string `[name]` in the binding map passed to the lenient
render; and for substitution-only bodies (no `if` blocks) that placeholder
then really appears verbatim in the rendered output.  (For bodies with
conditionals the appearance claim fails — see the counterexample.) -/
theorem claim_C5_preview (body : List Char) (vars : List (List Char × PyValue)) :
    (jinjaParse body = Option.none →
      TemplateRenderer.preview body vars =
        chars "Preview error (syntax): invalid template syntax") ∧
    (∀ v, memStr v (TemplateRenderer.extract_variables body) = true →
      alookup v vars = Option.none →
      alookup v (TemplateRenderer.previewVars body vars) =
        some (PyValue.str ('[' :: v ++ [']']))) ∧
    (∀ ast, jinjaParse body = some ast → subOnly ast = true →
      ∀ v, memStr v (TemplateRenderer.extract_variables body) = true →
        alookup v vars = Option.none →
        containsSub ('[' :: v ++ [']']) (TemplateRenderer.preview body vars) = true) := by
  refine ⟨?_, ?_, ?_⟩
  · intro h
    simp [TemplateRenderer.preview, h]
  · intro v hm h
    exact previewVars_lookup_miss body vars v h hm
  · intro ast hp hsub v hm h
    have hpre : TemplateRenderer.preview body vars =
        renderLen (TemplateRenderer.previewVars body vars) ast := by
      simp [TemplateRenderer.preview, hp]
    have hfv : v ∈ freeVars ast := by
      have hm2 := (memStr_iff v (TemplateRenderer.extract_variables body)).mp hm
      simp only [TemplateRenderer.extract_variables, hp] at hm2
      exact (mem_dedup _ v).mp hm2
    obtain ⟨pre, post, heq⟩ :=
      renderLen_segment (TemplateRenderer.previewVars body vars) v ast hsub hfv
    rw [previewVars_lookup_miss body vars v h hm] at heq
    rw [hpre, heq]
    exact containsSub_mid _ pre post

/-- C5 witness: on `Hello, \x7b\x7bname\x7d\x7d!` with no bindings the
placeholder `[name]` appears in the preview output. -/
theorem claim_C5_preview_witness :
    containsSub (chars "[name]")
      (TemplateRenderer.preview (chars "Hello, \x7b\x7bname\x7d\x7d!") []) = true :=
  (claim_C5_preview (chars "Hello, \x7b\x7bname\x7d\x7d!") []).2.2
    (JBody.text (chars "Hello, ")
      (JBody.var (chars "name") (JBody.text (chars "!") JBody.nil)))
    (by decide) (by decide) (chars "name") (by decide) rfl

end PromptTemplate

namespace PromptTemplate

/-- Lookup through the `_apply_defaults` fold: a caller binding survives
untouched; a missing name gets the first declared non-null default; a name
with neither stays absent. -/
theorem foldl_defaults_lookup (v : List Char) :
    ∀ (decls : List VariableConfig) (m : List (List Char × PyValue)),
      alookup v (decls.foldl
        (fun merged var =>
          match var.default with
          | some d =>
            if (alookup var.name merged).isNone then merged ++ [(var.name, d)]
            else merged
          | Option.none => merged) m) =
        (match alookup v m with
         | some x => some x
         | Option.none => firstDefault decls v) := by
  intro decls
  induction decls with
  | nil =>
    intro m
    simp only [List.foldl_nil]
    cases alookup v m <;> simp [firstDefault]
  | cons w rest ih =>
    intro m
    rw [List.foldl_cons]
    cases hd : w.default with
    | none =>
      simp only [hd]
      rw [ih]
      cases alookup v m <;> simp [firstDefault, hd]
    | some d =>
      simp only [hd]
      cases hwm : alookup w.name m with
      | some y =>
        simp only [hwm, Option.isNone_some, Bool.false_eq_true, if_false]
        rw [ih]
        by_cases hn : w.name = v
        · have hv : alookup v m = some y := hn ▸ hwm
          simp [hv]
        · cases alookup v m <;> simp [firstDefault, hd, hn]
      | none =>
        simp only [hwm, Option.isNone_none, if_true]
        rw [ih]
        by_cases hn : w.name = v
        · have hv : alookup v m = Option.none := hn ▸ hwm
          rw [alookup_append_none v m _ hv]
          simp [alookup, hv, firstDefault, hn, hd]
        · cases hvm : alookup v m with
          | some y =>
            rw [alookup_append_some v y m _ hvm]
          | none =>
            rw [alookup_append_none v m _ hvm]
            simp [alookup, hn, firstDefault, hd, hvm]

/-- The same, phrased for `Template.apply_defaults`. -/
theorem apply_defaults_lookup (cfg : TemplateConfig)
    (vars : List (List Char × PyValue)) (v : List Char) :
    alookup v (Template.apply_defaults cfg vars) =
      (match alookup v vars with
       | some x => some x
       | Option.none => firstDefault cfg.variables' v) :=
  foldl_defaults_lookup v cfg.variables' vars

end PromptTemplate

namespace PromptTemplate

/-- The configuration of the C9 witness: template
`Style: \x7b\x7bstyle\x7d\x7d \x7b\x7bname\x7d\x7d` with an optional
`style` defaulting to `formal` and a required defaultless `name`. -/
def exampleC9 : TemplateConfig :=
  { name := chars "t"
    template := chars "Style: \x7b\x7bstyle\x7d\x7d \x7b\x7bname\x7d\x7d"
    variables' :=
      [{ name := chars "style", required := false
         default := some (PyValue.str (chars "formal")) },
       { name := chars "name" }] }

/-- C9.  `Template.preview` first merges declared defaults (first
declaration with a non-null default wins for each name the caller did not
bind) and only then lets the renderer fill what is *still* missing with
`[name]` placeholders.  Conjuncts: (1) the method is exactly the renderer
preview on the default-merged bindings; (2) a name absent from the caller's
bindings with a declared non-null default is bound to that default, not to
a placeholder; (3) a name with neither a binding nor a non-null default is
bound to the `[name]` placeholder; (4) on substitution-only bodies the
default's `str` form consequently appears verbatim in the preview output. -/
theorem claim_C9_preview_defaults (cfg : TemplateConfig)
    (vars : List (List Char × PyValue)) :
    Template.preview cfg vars =
      TemplateRenderer.preview cfg.template (Template.apply_defaults cfg vars) ∧
    (∀ v d, alookup v vars = Option.none →
      firstDefault cfg.variables' v = some d →
      alookup v (TemplateRenderer.previewVars cfg.template
        (Template.apply_defaults cfg vars)) = some d) ∧
    (∀ v, memStr v (TemplateRenderer.extract_variables cfg.template) = true →
      alookup v vars = Option.none →
      firstDefault cfg.variables' v = Option.none →
      alookup v (TemplateRenderer.previewVars cfg.template
        (Template.apply_defaults cfg vars)) =
        some (PyValue.str ('[' :: v ++ [']']))) ∧
    (∀ ast, jinjaParse cfg.template = some ast → subOnly ast = true →
      ∀ v d, memStr v (TemplateRenderer.extract_variables cfg.template) = true →
        alookup v vars = Option.none →
        firstDefault cfg.variables' v = some d →
        containsSub (pyStr d) (Template.preview cfg vars) = true) := by
  refine ⟨rfl, ?_, ?_, ?_⟩
  · intro v d hv hd
    have hm : alookup v (Template.apply_defaults cfg vars) = some d := by
      rw [apply_defaults_lookup, hv, hd]
    exact previewVars_lookup_hit cfg.template _ v d hm
  · intro v hmem hv hd
    have hm : alookup v (Template.apply_defaults cfg vars) = Option.none := by
      rw [apply_defaults_lookup, hv, hd]
    exact previewVars_lookup_miss cfg.template _ v hm hmem
  · intro ast hp hsub v d hmem hv hd
    have hm : alookup v (Template.apply_defaults cfg vars) = some d := by
      rw [apply_defaults_lookup, hv, hd]
    have hpre : Template.preview cfg vars =
        renderLen (TemplateRenderer.previewVars cfg.template
          (Template.apply_defaults cfg vars)) ast := by
      show TemplateRenderer.preview cfg.template (Template.apply_defaults cfg vars) =
        _
      simp [TemplateRenderer.preview, hp]
    have hfv : v ∈ freeVars ast := by
      have hm2 := (memStr_iff v (TemplateRenderer.extract_variables cfg.template)).mp hmem
      simp only [TemplateRenderer.extract_variables, hp] at hm2
      exact (mem_dedup _ v).mp hm2
    obtain ⟨pre, post, heq⟩ :=
      renderLen_segment (TemplateRenderer.previewVars cfg.template
        (Template.apply_defaults cfg vars)) v ast hsub hfv
    rw [previewVars_lookup_hit cfg.template _ v d hm] at heq
    rw [hpre, heq]
    exact containsSub_mid _ pre post

/-- C9 witness: previewing `exampleC9` with no bindings renders the
declared default `formal` (not `[style]`) and the placeholder `[name]`. -/
theorem claim_C9_preview_defaults_witness :
    containsSub (chars "formal") (Template.preview exampleC9 []) = true :=
  (claim_C9_preview_defaults exampleC9 []).2.2.2
    (JBody.text (chars "Style: ")
      (JBody.var (chars "style")
        (JBody.text [' '] (JBody.var (chars "name") JBody.nil))))
    (by decide) (by decide) (chars "style") (PyValue.str (chars "formal"))
    (by decide) rfl (by decide)

end PromptTemplate

namespace PromptTemplate

/-! ## C8: semantic-validator invariants -/

/-- The invariant carried through the six semantic checks: the result is
still valid and every recorded issue is `info` or `warning`. -/
def infoOrWarn (r : SemanticValidationResult) : Prop :=
  r.is_valid = true ∧
  ∀ i ∈ r.issues, i.severity = chars "info" ∨ i.severity = chars "warning"

/-- The message `to_validation_result` builds for one issue. -/
def semanticMsg (issue : SemanticIssue) : List Char :=
  chars "[Semantic] " ++ issue.message ++
    (match issue.suggestion with
     | some s => chars " (Suggestion: " ++ s ++ chars ")"
     | Option.none => [])

theorem infoOrWarn_add (r : SemanticValidationResult) (i : SemanticIssue)
    (hr : infoOrWarn r)
    (hi : i.severity = chars "info" ∨ i.severity = chars "warning") :
    infoOrWarn (r.add_issue i) := by
  obtain ⟨hv, hall⟩ := hr
  have hne : ¬ i.severity = chars "error" := by
    rcases hi with h | h <;> rw [h] <;> decide
  constructor
  · simp [SemanticValidationResult.add_issue, hne, hv]
  · intro j hj
    simp only [SemanticValidationResult.add_issue, List.mem_append,
      List.mem_singleton] at hj
    rcases hj with hj | rfl
    · exact hall j hj
    · exact hi

theorem foldl_infoOrWarn {β : Type}
    (f : SemanticValidationResult → β → SemanticValidationResult)
    (hf : ∀ r b, infoOrWarn r → infoOrWarn (f r b)) :
    ∀ (l : List β) (r), infoOrWarn r → infoOrWarn (l.foldl f r) := by
  intro l
  induction l with
  | nil => intro r h; exact h
  | cons x xs ih => intro r h; exact ih _ (hf r x h)

theorem infoOrWarn_set_scores (r : SemanticValidationResult) (a b c d : ℤ)
    (h : infoOrWarn r) :
    infoOrWarn { r with role_clarity_score := a, instruction_clarity_score := b,
                        context_coherence_score := c, task_alignment_score := d } := h

theorem check_role_definition_inv (cfg : TemplateConfig)
    (r : SemanticValidationResult) (h : infoOrWarn r) :
    infoOrWarn (SemanticValidator.check_role_definition cfg r) := by
  simp only [SemanticValidator.check_role_definition]
  repeat' split
  all_goals
    repeat
      first
      | exact h
      | refine infoOrWarn_add _ _ ?_ (Or.inl rfl)
      | refine infoOrWarn_add _ _ ?_ (Or.inr rfl)
      | refine infoOrWarn_set_scores _ _ _ _ _ ?_

theorem check_instruction_clarity_inv (cfg : TemplateConfig)
    (r : SemanticValidationResult) (h : infoOrWarn r) :
    infoOrWarn (SemanticValidator.check_instruction_clarity cfg r) := by
  simp only [SemanticValidator.check_instruction_clarity]
  repeat' split
  all_goals apply infoOrWarn_set_scores
  all_goals
    repeat
      first
      | exact h
      | refine infoOrWarn_add _ _ ?_ (Or.inl rfl)

end PromptTemplate

namespace PromptTemplate

theorem check_context_coherence_inv (cfg : TemplateConfig)
    (r : SemanticValidationResult) (h : infoOrWarn r) :
    infoOrWarn (SemanticValidator.check_context_coherence cfg r) := by
  simp only [SemanticValidator.check_context_coherence]
  repeat' split
  all_goals
    repeat
      first
      | exact h
      | refine infoOrWarn_add _ _ ?_ (Or.inl rfl)
      | refine infoOrWarn_add _ _ ?_ (Or.inr rfl)
      | refine infoOrWarn_set_scores _ _ _ _ _ ?_

theorem check_task_alignment_inv (cfg : TemplateConfig)
    (r : SemanticValidationResult) (h : infoOrWarn r) :
    infoOrWarn (SemanticValidator.check_task_alignment cfg r) := by
  simp only [SemanticValidator.check_task_alignment]
  repeat' split
  all_goals
    repeat
      first
      | exact h
      | refine infoOrWarn_add _ _ ?_ (Or.inl rfl)
      | refine infoOrWarn_add _ _ ?_ (Or.inr rfl)
      | refine infoOrWarn_set_scores _ _ _ _ _ ?_

theorem check_placeholder_quality_inv (cfg : TemplateConfig)
    (r : SemanticValidationResult) (h : infoOrWarn r) :
    infoOrWarn (SemanticValidator.check_placeholder_quality cfg r) := by
  simp only [SemanticValidator.check_placeholder_quality]
  refine foldl_infoOrWarn _ ?_ _ _ h
  intro r' b hb
  repeat' split
  all_goals
    repeat
      first
      | exact hb
      | refine infoOrWarn_add _ _ ?_ (Or.inl rfl)
      | refine infoOrWarn_add _ _ ?_ (Or.inr rfl)
      | refine infoOrWarn_set_scores _ _ _ _ _ ?_

theorem check_prompt_structure_inv (cfg : TemplateConfig)
    (r : SemanticValidationResult) (h : infoOrWarn r) :
    infoOrWarn (SemanticValidator.check_prompt_structure cfg r) := by
  simp only [SemanticValidator.check_prompt_structure]
  repeat' split
  all_goals
    repeat
      first
      | exact h
      | refine infoOrWarn_add _ _ ?_ (Or.inl rfl)
      | refine infoOrWarn_add _ _ ?_ (Or.inr rfl)
      | refine infoOrWarn_set_scores _ _ _ _ _ ?_

/-- The invariant holds of the full semantic validation. -/
theorem semantic_validate_inv (cfg : TemplateConfig) :
    infoOrWarn (SemanticValidator.validate cfg) := by
  have h0 : infoOrWarn ({} : SemanticValidationResult) := by
    constructor
    · rfl
    · intro i hi
      cases hi
  exact check_prompt_structure_inv cfg _
    (check_placeholder_quality_inv cfg _
      (check_task_alignment_inv cfg _
        (check_context_coherence_inv cfg _
          (check_instruction_clarity_inv cfg _
            (check_role_definition_inv cfg _ h0)))))

end PromptTemplate

namespace PromptTemplate

theorem semantic_foldl_warnings :
    ∀ (issues : List SemanticIssue) (acc : ValidationResult),
      (∀ i ∈ issues, i.severity = chars "info" ∨ i.severity = chars "warning") →
      issues.foldl
        (fun acc issue =>
          let msg := chars "[Semantic] " ++ issue.message ++
            (match issue.suggestion with
             | some s => chars " (Suggestion: " ++ s ++ chars ")"
             | Option.none => [])
          if issue.severity = chars "error" then acc.add_error msg
          else acc.add_warning msg) acc =
        { acc with warnings := acc.warnings ++ issues.map semanticMsg } := by
  intro issues
  induction issues with
  | nil => intro acc _; simp
  | cons i is ih =>
    intro acc hall
    have hi := hall i (List.mem_cons_self i is)
    have hne : ¬ i.severity = chars "error" := by
      rcases hi with h | h <;> rw [h] <;> decide
    rw [List.foldl_cons]
    simp only
    rw [if_neg hne]
    rw [ih _ (fun j hj => hall j (List.mem_cons_of_mem i hj))]
    simp [ValidationResult.add_warning, semanticMsg]

/-- When every issue is `info`/`warning`, the conversion leaves the errors
empty and maps every issue into a prefixed warning. -/
theorem to_validation_result_char (r : SemanticValidationResult)
    (h : ∀ i ∈ r.issues, i.severity = chars "info" ∨ i.severity = chars "warning") :
    r.to_validation_result =
      { is_valid := r.is_valid, errors := [],
        warnings := r.issues.map semanticMsg } := by
  unfold SemanticValidationResult.to_validation_result
  rw [semantic_foldl_warnings r.issues _ h]
  simp

/-- C8.  For every configuration the semantic validator's result is valid;
every issue any of the six checks emits has severity `info` or `warning`
(never `error`); consequently `to_validation_result` produces no errors,
keeps `is_valid` true, and routes every issue — prefixed with
`[Semantic] ` and with its optional `(Suggestion: …)` tail — into the
warnings list.  The final conjunct states the mechanism: `add_issue` can
only clear `is_valid` on an `error`-severity issue. -/
theorem claim_C8_semantic_severities (cfg : TemplateConfig) :
    (SemanticValidator.validate cfg).is_valid = true ∧
    (∀ i ∈ (SemanticValidator.validate cfg).issues,
      i.severity = chars "info" ∨ i.severity = chars "warning") ∧
    (SemanticValidator.validate cfg).to_validation_result.errors = [] ∧
    (SemanticValidator.validate cfg).to_validation_result.is_valid = true ∧
    (SemanticValidator.validate cfg).to_validation_result.warnings =
      (SemanticValidator.validate cfg).issues.map semanticMsg ∧
    (∀ (r : SemanticValidationResult) (i : SemanticIssue),
      (r.add_issue i).is_valid = false →
      i.severity = chars "error" ∨ r.is_valid = false) := by
  obtain ⟨hv, hall⟩ := semantic_validate_inv cfg
  have hc := to_validation_result_char _ hall
  refine ⟨hv, hall, ?_, ?_, ?_, ?_⟩
  · rw [hc]
  · rw [hc]; exact hv
  · rw [hc]
  · intro r i hvi
    by_cases he : i.severity = chars "error"
    · exact Or.inl he
    · right
      simpa [SemanticValidationResult.add_issue, he] using hvi

end PromptTemplate

namespace PromptTemplate

/-- The split configuration of the C7 witness. -/
def exampleC7Split : TemplateConfig :=
  { name := chars "t"
    template := []
    system_prompt := some (chars "You are a helpful assistant.")
    user_prompt := some (chars "Summarize the text.") }

/-- The single-template configuration of the C7 witness, with the same
combined content. -/
def exampleC7Single : TemplateConfig :=
  { name := chars "t"
    template := chars "You are a helpful assistant." ++ chars "Summarize the text." }

/-- C7 witness: on the concrete pair of configurations with identical
combined content the split configuration's structure score is at least
the single-template one's. -/
theorem claim_C7_structure_split_witness :
    (score_structure exampleC7Single).score ≤ (score_structure exampleC7Split).score :=
  claim_C7_structure_split exampleC7Split exampleC7Single
    (chars "You are a helpful assistant.") (chars "Summarize the text.")
    rfl rfl (by decide) (by decide) rfl rfl (by decide)

end PromptTemplate
